import Mathlib

/-!
# Verification of the skillforge feedback pipeline

A shallow embedding of the core of the `skillforge` repository
(`discovery.py`, `corpus.py`, `teacher.py`, `shadow_validation.py`,
`sandbox_runner.py`) together with theorems about the embedded
definitions.

Conventions of the embedding:

* Pure Python functions become Lean functions; Python exceptions become
  `Except`; Python `None` becomes `Option`.
* The on-disk corpus (a directory of page files plus `manifest.json`)
  is modelled as a `Corpus` value: an optional manifest plus an
  association list from filename to file content.
* External collaborators (the Anthropic model, the Python `ast.parse`
  and `py_compile` checks, the `bash -n` check, the Firecrawl crawl and
  search service) are modelled as explicit oracle parameters, so every
  theorem quantifies over their possible behaviours.
* Python regular-expression scans (`re.finditer`, `re.search`) are
  modelled by executable character-list scanners that follow the
  left-to-right, non-overlapping semantics of the specific patterns
  used in the source.
-/

namespace SkillForge

/-! ## Character and string utilities -/

/-- The backtick character, written via its code point. -/
def btick : Char := Char.ofNat 96

/-- The single-quote character. -/
def squote : Char := Char.ofNat 39

/-- The double-quote character. -/
def dquote : Char := Char.ofNat 34

/-- The opening curly brace character. -/
def obrace : Char := Char.ofNat 123

/-- The closing curly brace character. -/
def cbrace : Char := Char.ofNat 125

/-- Characters allowed in the `lang` group of the fenced code block
regular expression `[a-zA-Z0-9_+-]`. -/
def isLangChar (c : Char) : Bool :=
  c.isAlpha || c.isDigit || c == '_' || c == '+' || c == '-'

/-- Python regex word characters `\w` (ASCII fragment). -/
def isWordChar (c : Char) : Bool :=
  c.isAlpha || c.isDigit || c == '_'

/-- Python regex whitespace `\s` (ASCII fragment). -/
def isSpaceChar (c : Char) : Bool :=
  c == ' ' || c == '\t' || c == '\n' || c == '\r' ||
    c == Char.ofNat 11 || c == Char.ofNat 12

/-- First-match lookup in an association list, mirroring both Python
`dict.get` and the way the embedding stores files on disk. -/
def lookupA {α : Type} (k : String) : List (String × α) → Option α
  | [] => none
  | (k₂, v) :: rest => if k₂ = k then some v else lookupA k rest

/-- Write (replace-or-append) an entry of an association list; models
writing a file into the corpus directory. -/
def putFile : List (String × String) → String → String → List (String × String)
  | [], name, content => [(name, content)]
  | (n, c) :: rest, name, content =>
    if n = name then (n, content) :: rest else (n, c) :: putFile rest name content

/-- Match a literal character list at the head of the input, returning
the remainder on success. -/
def matchLit : List Char → List Char → Option (List Char)
  | [], l => some l
  | _ :: _, [] => none
  | p :: ps, c :: cs => if p = c then matchLit ps cs else none

/-- Character membership in a character list. -/
def hasChar (c : Char) : List Char → Bool
  | [] => false
  | d :: rest => c == d || hasChar c rest

/-- Does `pat` occur as a contiguous sublist of `l`? -/
def hasSub (pat : List Char) : List Char → Bool
  | [] => decide (pat = [])
  | l@(_ :: rest) => pat.isPrefixOf l || hasSub pat rest

/-- First index at or after which `pat` occurs in `l` (an index into
`l` itself), mirroring Python `str.find(pat)` restricted to success as
an `Option`. -/
def findSubAux (pat : List Char) : List Char → Nat → Option Nat
  | [], i => if pat = [] then some i else none
  | l@(_ :: rest), i => if pat.isPrefixOf l then some i else findSubAux pat rest (i + 1)

/-- Python `s.find(pat, start)` returning `none` for `-1`. -/
def findSubFrom (s pat : String) (start : Nat) : Option Nat :=
  (findSubAux pat.data (s.data.drop start) 0).map (· + start)

/-- Python `str.startswith`, character-list based. -/
def strStartsWith (s p : String) : Bool :=
  p.data.isPrefixOf s.data

/-- Python `str.strip()`: remove leading and trailing whitespace. -/
def pyStrip (s : String) : String :=
  String.mk (((s.data.dropWhile isSpaceChar).reverse.dropWhile isSpaceChar).reverse)

/-- Python slicing `s[n:]` on character indices. -/
def strDrop (s : String) (n : Nat) : String :=
  String.mk (s.data.drop n)

/-- Python `sep.join(parts)`. -/
def joinSep (sep : String) : List String → String
  | [] => ""
  | [p] => p
  | p :: rest => p ++ sep ++ joinSep sep rest

/-- Python `str.rstrip("/")`: drop every trailing slash. -/
def rstripSlashes (s : String) : String :=
  String.mk ((s.data.reverse.dropWhile (fun c => c == '/')).reverse)

/-! ## Fenced code block extraction

Models `CODE_BLOCK_RE = re.compile(r"``` lang? \n code*? ```", DOTALL)`
and its `finditer` loop, shared verbatim by `shadow_validation.py` and
`sandbox_runner.py` (`_extract_code_blocks`). -/

/-- Find the first closing triple-backtick fence: returns the text
before it and the remainder after it. -/
def findFence : List Char → Option (List Char × List Char)
  | a :: b :: c :: rest =>
    if a = btick ∧ b = btick ∧ c = btick then some ([], rest)
    else
      match findFence (b :: c :: rest) with
      | some (pre, post) => some (a :: pre, post)
      | none => none
  | _ => none

/-- Attempt the code-block regular expression at the current position:
three backticks, an optional language word, a newline, then the
shortest run of characters up to a closing fence. -/
def tryMatchAt (l : List Char) : Option (String × String × List Char) :=
  match l with
  | a :: b :: c :: t =>
    if a = btick ∧ b = btick ∧ c = btick then
      let spanned := t.span isLangChar
      match spanned.2 with
      | nl :: t₃ =>
        if nl = '\n' then
          match findFence t₃ with
          | some (code, rem) =>
            some (String.mk (spanned.1.map Char.toLower), String.mk code, rem)
          | none => none
        else none
      | [] => none
    else none
  | _ => none

/-- Fuelled scanning loop of `finditer`: on a match, resume after the
match; otherwise advance one character. The fuel is the input length,
which bounds the number of scan steps. -/
def scanBlocksAux : Nat → List Char → List (String × String)
  | _, [] => []
  | 0, _ :: _ => []
  | fuel + 1, c :: cs =>
    match tryMatchAt (c :: cs) with
    | some (lang, code, rem) => (lang, code) :: scanBlocksAux fuel rem
    | none => scanBlocksAux fuel cs

/-- `_extract_code_blocks` of `shadow_validation.py` and
`sandbox_runner.py`: every fenced code block as a (language, code)
pair, language lower-cased. -/
def extract_code_blocks (s : String) : List (String × String) :=
  scanBlocksAux s.data.length s.data

/-! ## Static analysis (`shadow_validation.py`) -/

/-- Case-insensitive literal match returning the remainder. -/
def ciMatch : List Char → List Char → Option (List Char)
  | [], rest => some rest
  | _ :: _, [] => none
  | p :: ps, c :: cs => if p.toLower = c.toLower then ciMatch ps cs else none

/-- Does some variant match at the head of `l` with a word boundary
after it? -/
def wordMatchHere (variants : List (List Char)) (l : List Char) : Bool :=
  variants.any fun v =>
    match ciMatch v l with
    | some [] => true
    | some (d :: _) => !isWordChar d
    | none => false

/-- `re.search` of a word-bounded, case-insensitive alternative list:
the flag records whether the previous character was a word character
(so that the leading boundary fails). -/
def wordSearchAux (variants : List (List Char)) : Bool → List Char → Bool
  | prevWord, [] => !prevWord && wordMatchHere variants []
  | prevWord, c :: cs =>
    (!prevWord && wordMatchHere variants (c :: cs)) ||
      wordSearchAux variants (isWordChar c) cs

/-- `re.search(pattern, output, re.IGNORECASE)` for the placeholder
patterns: each pattern is a word-bounded alternative list. -/
def hasPlaceholder (variants : List String) (s : String) : Bool :=
  wordSearchAux (variants.map String.data) false s.data

/-- The `PLACEHOLDER_PATTERNS` table: a label for the warning message
together with the expansion of each `_?` optional underscore. -/
def placeholderTable : List (String × List String) :=
  [ ("TODO", ["todo"]),
    ("FIXME", ["fixme"]),
    ("placeholder", ["placeholder"]),
    ("your_api_key", ["yourapikey", "your_apikey", "yourapi_key", "your_api_key"]),
    ("your_token", ["yourtoken", "your_token"]),
    ("your_project", ["yourproject", "your_project"]),
    ("example_module", ["examplemodule", "example_module"]),
    ("my_library", ["mylibrary", "my_library"]) ]

/-- The warnings produced by the placeholder scan, in table order. -/
def placeholderWarnings (output : String) : List String :=
  placeholderTable.filterMap fun entry =>
    if hasPlaceholder entry.2 output then
      some ("Found placeholder text matching " ++ entry.1)
    else none

/-- Match `pip\s+install\s+([^\s]+)` at the current position, the
leading word boundary having been checked by the caller. Returns the
captured package and the remainder after the match. -/
def tryPipAt (l : List Char) : Option (List Char × List Char) :=
  match matchLit "pip".data l with
  | none => none
  | some r₁ =>
    let sp₁ := r₁.span isSpaceChar
    if sp₁.1 = [] then none
    else
      match matchLit "install".data sp₁.2 with
      | none => none
      | some r₂ =>
        let sp₂ := r₂.span isSpaceChar
        if sp₂.1 = [] then none
        else
          let pkg := sp₂.2.span (fun c => !isSpaceChar c)
          if pkg.1 = [] then none else some (pkg.1, pkg.2)

/-- `PIP_INSTALL_RE.finditer`: all captured package specifiers. -/
def pipScanAux : Nat → Bool → List Char → List (List Char)
  | _, _, [] => []
  | 0, _, _ :: _ => []
  | fuel + 1, prevWord, c :: cs =>
    match (if prevWord then none else tryPipAt (c :: cs)) with
    | some (pkg, rest) =>
      pkg :: pipScanAux fuel (isWordChar (pkg.getLastD ' ')) rest
    | none => pipScanAux fuel (isWordChar c) cs

/-- `_check_pip_installs`: flag specifiers containing version operators
or unresolved template braces. -/
def check_pip_installs (output : String) : List String :=
  (pipScanAux output.data.length false output.data).filterMap fun pkg =>
    if hasChar '<' pkg || hasChar '>' pkg || hasSub "...".data pkg ||
        hasChar obrace pkg || hasChar cbrace pkg then
      some ("Invalid pip package specifier: " ++ String.mk pkg)
    else none

/-- Match `(from|import)\s+([^\s#]+)` after the leading `^\s*` has been
consumed; returns the captured module name and the remainder. -/
def tryImportKeyword (kw : String) (l : List Char) : Option (List Char × List Char) :=
  match matchLit kw.data l with
  | none => none
  | some r₁ =>
    let sp := r₁.span isSpaceChar
    if sp.1 = [] then none
    else
      let name := sp.2.span (fun c => !isSpaceChar c && c ≠ '#')
      if name.1 = [] then none else some (name.1, name.2)

/-- Attempt `^\s*(?:from|import)\s+([^\s#]+)` at a line start. -/
def tryImportAt (l : List Char) : Option (List Char × List Char) :=
  let sp := l.span isSpaceChar
  match tryImportKeyword "from" sp.2 with
  | some r => some r
  | none => tryImportKeyword "import" sp.2

/-- `IMPORT_RE.finditer` with `re.MULTILINE`: scan line starts,
consuming each match. -/
def importScanAux : Nat → Bool → List Char → List (List Char)
  | _, _, [] => []
  | 0, _, _ :: _ => []
  | fuel + 1, atLineStart, c :: cs =>
    match (if atLineStart then tryImportAt (c :: cs) else none) with
    | some (name, rest) => name :: importScanAux fuel false rest
    | none => importScanAux fuel (c == '\n') cs

/-- `_check_import_names`: dashes, leading slashes and path separators
in a Python import are flagged. -/
def check_import_names (code : String) : List String :=
  (importScanAux code.data.length true code.data).flatMap fun name =>
    (if hasChar '-' name || name.headD ' ' == '/' then
      ["Invalid Python import name: " ++ String.mk name]
    else []) ++
    (if hasChar '/' name then
      ["Suspicious Python import path: " ++ String.mk name]
    else [])

/-- Match a quoted module path `['"]([^'"]+)['"]`. -/
def tryQuoted (l : List Char) : Option (List Char × List Char) :=
  match l with
  | q :: rest =>
    if q = squote ∨ q = dquote then
      let body := rest.span (fun c => !(c == squote) && !(c == dquote))
      match body.2 with
      | q₂ :: rest₂ =>
        if (q₂ = squote ∨ q₂ = dquote) ∧ body.1 ≠ [] then some (body.1, rest₂) else none
      | [] => none
    else none
  | [] => none

/-- Match `from\s+['"]mod['"]` at the current position (leading word
boundary checked by the caller). -/
def tryJsFromAt (l : List Char) : Option (List Char × List Char) :=
  match matchLit "from".data l with
  | none => none
  | some r₁ =>
    let sp := r₁.span isSpaceChar
    if sp.1 = [] then none else tryQuoted sp.2

/-- Match `require\(['"]mod['"]\)` at the current position. -/
def tryJsRequireAt (l : List Char) : Option (List Char × List Char) :=
  match matchLit "require(".data l with
  | none => none
  | some r₁ =>
    match tryQuoted r₁ with
    | some (body, rest) =>
      match rest with
      | c :: rest₂ => if c = ')' then some (body, rest₂) else none
      | [] => none
    | none => none

/-- Generic finditer loop for a word-bounded matcher. -/
def wordScanAux (try₁ : List Char → Option (List Char × List Char)) :
    Nat → Bool → List Char → List (List Char)
  | _, _, [] => []
  | 0, _, _ :: _ => []
  | fuel + 1, prevWord, c :: cs =>
    match (if prevWord then none else try₁ (c :: cs)) with
    | some (body, rest) => body :: wordScanAux try₁ fuel false rest
    | none => wordScanAux try₁ fuel (isWordChar c) cs

/-- `_check_js_imports`: spaces inside a JS import or require path are
flagged. -/
def check_js_imports (code : String) : List String :=
  ((wordScanAux tryJsFromAt code.data.length false code.data).filterMap fun m =>
    if hasChar ' ' m then some ("Invalid JS import path: " ++ String.mk m) else none) ++
  ((wordScanAux tryJsRequireAt code.data.length false code.data).filterMap fun m =>
    if hasChar ' ' m then some ("Invalid JS require path: " ++ String.mk m) else none)

/-- `StaticAnalysisResult` of `shadow_validation.py`. -/
structure StaticAnalysisResult where
  errors : List String
  warnings : List String
deriving Repr, DecidableEq

/-- The per-block error contribution of the `fast_static_analysis`
loop. `pySyntax` is the `ast.parse` oracle of `_check_python_syntax`:
`some msg` is a syntax error, `none` means the code parses. -/
def blockErrors (pySyntax : String → Option String) (block : String × String) : List String :=
  (if block.1 = "python" ∨ block.1 = "py" then
    (match pySyntax block.2 with
      | some msg => [msg]
      | none => []) ++ check_import_names block.2
  else []) ++
  (if block.1 = "javascript" ∨ block.1 = "js" ∨ block.1 = "typescript" ∨ block.1 = "ts" then
    check_js_imports block.2
  else [])

/-- `fast_static_analysis` of `shadow_validation.py`. -/
def fast_static_analysis (pySyntax : String → Option String) (output : String) :
    StaticAnalysisResult :=
  let blocks := extract_code_blocks output
  { errors := check_pip_installs output ++ blocks.flatMap (blockErrors pySyntax),
    warnings :=
      (if blocks.isEmpty then ["No code blocks detected for static analysis"] else []) ++
        placeholderWarnings output }

/-- `SandboxResult` of `shadow_validation.py`. -/
structure SandboxResult where
  success : Bool
  exitCode : Int
  stdout : String := ""
  stderr : String := ""
deriving Repr, DecidableEq

/-- `ShadowValidationResult` of `shadow_validation.py`. -/
structure ShadowValidationResult where
  passed : Bool
  errors : List String := []
  warnings : List String := []
  errorSummary : Option String := none
  searchQuery : Option String := none
deriving Repr, DecidableEq

/-- `_build_search_query`. -/
def build_search_query (task errorSummary : String) : String :=
  pyStrip (task ++ " " ++ errorSummary)

/-- `shadow_validate_output`: static analysis first; any static error
rejects; otherwise the optional sandbox runner decides; otherwise pass
with the collected warnings. -/
def shadow_validate_output (pySyntax : String → Option String) (output task : String)
    (sandboxRunner : Option (String → String → SandboxResult)) : ShadowValidationResult :=
  let staticResult := fast_static_analysis pySyntax output
  if staticResult.errors.isEmpty then
    match sandboxRunner with
    | some runner =>
      let r := runner output task
      if r.success then
        { passed := true, warnings := staticResult.warnings }
      else
        let summary := if pyStrip r.stderr = "" then "Sandbox validation failed" else pyStrip r.stderr
        { passed := false, errors := [summary], warnings := staticResult.warnings,
          errorSummary := some summary,
          searchQuery := some (build_search_query task summary) }
    | none => { passed := true, warnings := staticResult.warnings }
  else
    let summary := joinSep "; " staticResult.errors
    { passed := false, errors := staticResult.errors, warnings := staticResult.warnings,
      errorSummary := some summary,
      searchQuery := some (build_search_query task summary) }

/-! ## Sandbox runner (`sandbox_runner.py`)

`pyCompile` models `python -m py_compile` on a block, `shCheck` models
`bash -n`; both are oracle parameters standing for `_run_command`. -/

/-- The per-block loop of `run_sandbox_validation`. -/
def sandboxLoop (pyCompile shCheck : String → SandboxResult) :
    List (String × String) → SandboxResult
  | [] => { success := true, exitCode := 0 }
  | (lang, code) :: rest =>
    if lang = "python" ∨ lang = "py" then
      let r := pyCompile code
      if r.success then sandboxLoop pyCompile shCheck rest
      else
        { success := false, exitCode := r.exitCode, stdout := r.stdout,
          stderr := if r.stderr = "" then "Python compile check failed" else r.stderr }
    else if lang = "bash" ∨ lang = "sh" ∨ lang = "shell" then
      let r := shCheck code
      if r.success then sandboxLoop pyCompile shCheck rest
      else
        { success := false, exitCode := r.exitCode, stdout := r.stdout,
          stderr := if r.stderr = "" then "Shell syntax check failed" else r.stderr }
    else sandboxLoop pyCompile shCheck rest

/-- `run_sandbox_validation`: reject with exit code 2 when no code
block is extractable, otherwise check each block by language. -/
def run_sandbox_validation (pyCompile shCheck : String → SandboxResult)
    (output task : String) : SandboxResult :=
  let blocks := extract_code_blocks output
  if blocks.isEmpty then
    { success := false, exitCode := 2,
      stderr := "No runnable code blocks found for task: " ++ task }
  else sandboxLoop pyCompile shCheck blocks

/-! ## Source discovery (`discovery.py`) -/

/-- `SourceType` of `discovery.py`. -/
inductive SourceType where
  | seed
  | mapped
  | searched
deriving Repr, DecidableEq

/-- `SourceType.value`. -/
def SourceType.value : SourceType → String
  | .seed => "seed"
  | .mapped => "mapped"
  | .searched => "searched"

/-- `SourceTier` of `discovery.py`. -/
inductive SourceTier where
  | tier1
  | tier2
  | tier3
deriving Repr, DecidableEq

/-- The numeric value of a tier. -/
def SourceTier.val : SourceTier → Nat
  | .tier1 => 1
  | .tier2 => 2
  | .tier3 => 3

/-- `Source` of `discovery.py`. -/
structure Source where
  url : String
  title : Option String
  sourceType : SourceType
  priority : Int
  tier : SourceTier := .tier3
  content : Option String := none
deriving Repr, DecidableEq

/-- The base priority per tier used by `_tier_to_priority`. -/
def tierBase : SourceTier → Int
  | .tier1 => 1
  | .tier2 => 4
  | .tier3 => 7

/-- `_tier_to_priority`: seed origin forces priority 1; mapped adds 1
to the tier base; searched adds 2. -/
def tier_to_priority (tier : SourceTier) (sourceType : SourceType) : Int :=
  match sourceType with
  | .seed => 1
  | .mapped => tierBase tier + 1
  | .searched => tierBase tier + 2

/-- URL normalisation used by `_deduplicate_sources`:
`s.url.rstrip("/")`. -/
def normalize_url (s : String) : String :=
  rstripSlashes s

/-- In-place value update of a Python dict entry, modelled on the
insertion-ordered association list (keys are unique in a dict, so
updating every occurrence is the same as updating the one entry). -/
def replaceKey (k : String) (s : Source) : List (String × Source) → List (String × Source)
  | [] => []
  | (k₂, v) :: rest =>
    if k₂ = k then (k, s) :: replaceKey k s rest
    else (k₂, v) :: replaceKey k s rest

/-- One step of the `_deduplicate_sources` loop over the `seen`
dictionary (an insertion-ordered association list, like a Python
dict). -/
def dedupStep (seen : List (String × Source)) (s : Source) : List (String × Source) :=
  let k := normalize_url s.url
  match lookupA k seen with
  | none => seen ++ [(k, s)]
  | some cur =>
    if s.priority < cur.priority then replaceKey k s seen
    else seen

/-- `_deduplicate_sources`: keep, per normalized URL, the first source
achieving the strictly lowest priority, in key insertion order. -/
def deduplicate_sources (sources : List Source) : List Source :=
  (sources.foldl dedupStep []).map Prod.snd

/-! ## Corpus assembly (`corpus.py`) -/

/-- A manifest page record (`PageInfo` and the dict stored in
`manifest.json`). -/
structure PageEntry where
  filename : String
  url : String
  title : Option String
  sourceType : String
  priority : Int
  tier : Nat
  tokenEstimate : Nat
deriving Repr, DecidableEq

/-- The `tier_breakdown` object of the manifest. -/
structure TierBreakdown where
  tier1Critical : Nat
  tier2Supporting : Nat
  tier3Context : Nat
deriving Repr, DecidableEq

/-- `manifest.json`. -/
structure Manifest where
  task : String
  seedUrl : Option String
  createdAt : String
  updatedAt : String
  pages : List PageEntry
  totalPages : Nat
  totalTokensEstimate : Nat
  tierBreakdown : TierBreakdown
deriving Repr, DecidableEq

/-- A corpus directory on disk: the optional manifest plus the page
files (filename to content). -/
structure Corpus where
  manifest : Option Manifest
  files : List (String × String)
deriving Repr, DecidableEq

/-- Is this character kept by the first substitution of `_slugify`
(`[^a-z0-9\s-]` removed, after lower-casing)? -/
def isSlugKeep (c : Char) : Bool :=
  (decide ('a' ≤ c) && decide (c ≤ 'z')) || c.isDigit || isSpaceChar c || c == '-'

/-- Replace each maximal run of characters satisfying `p` by a single
copy of `r`; the flag records whether the previous character was in a
run. Models `re.sub(p ++ "+", r, s)` for a single-character class. -/
def collapseRuns (p : Char → Bool) (r : Char) : Bool → List Char → List Char
  | _, [] => []
  | inRun, c :: cs =>
    if p c then
      if inRun then collapseRuns p r true cs
      else r :: collapseRuns p r true cs
    else c :: collapseRuns p r false cs

/-- `re.sub(r"[\s_]+", "-", slug)`; underscores were already removed by
the previous substitution, so only whitespace runs remain. -/
def collapseSpaces (l : List Char) : List Char :=
  collapseRuns isSpaceChar '-' false l

/-- `re.sub(r"-+", "-", slug)`. -/
def collapseDashes (l : List Char) : List Char :=
  collapseRuns (fun d => d == '-') '-' false l

/-- Python `str.strip("-")`. -/
def stripDashes (l : List Char) : List Char :=
  ((l.dropWhile (fun c => c == '-')).reverse.dropWhile (fun c => c == '-')).reverse

/-- `_slugify`. -/
def slugify (text : String) (maxLength : Nat := 50) : String :=
  let lowered := text.data.map Char.toLower
  let kept := lowered.filter isSlugKeep
  String.mk (stripDashes ((collapseDashes (collapseSpaces kept)).take maxLength))

/-- A minimal model of `urllib.parse.urlparse` restricted to what the
corpus code consumes: the network location and the path. -/
def urlNetlocPath (url : String) : String × String :=
  let chars := url.data
  match findSubAux "://".data chars 0 with
  | some i =>
    let rest := chars.drop (i + 3)
    let netloc := rest.takeWhile (fun c => !(c == '/') && !(c == '?') && !(c == '#'))
    let after := rest.drop netloc.length
    (String.mk netloc, String.mk (after.takeWhile (fun c => !(c == '?') && !(c == '#'))))
  | none =>
    ("", String.mk (chars.takeWhile (fun c => !(c == '?') && !(c == '#'))))

/-- Python `f"{index:03d}"`. -/
def pad3 (n : Nat) : String :=
  if n < 10 then "00" ++ toString n
  else if n < 100 then "0" ++ toString n
  else toString n

/-- `_url_to_filename`. -/
def url_to_filename (url : String) (index : Nat) : String :=
  let parsed := urlNetlocPath url
  pad3 index ++ "_" ++ slugify (parsed.1 ++ parsed.2) 60 ++ ".md"

/-- `_estimate_tokens`: about four characters per token. -/
def estimate_tokens (text : String) : Nat :=
  text.length / 4

/-- The front matter block written by `_write_page`; `now` models
`datetime.now(timezone.utc).isoformat()`. -/
def frontmatterOf (url : String) (title : Option String) (now sourceType : String)
    (priority : Int) (tier : Nat) : String :=
  "---\nurl: " ++ url ++
    "\ntitle: " ++ (match title with
      | some t => if t = "" then "Untitled" else t
      | none => "Untitled") ++
    "\ncrawled_at: " ++ now ++
    "\nsource_type: " ++ sourceType ++
    "\npriority: " ++ toString priority ++
    "\ntier: " ++ toString tier ++
    "\n---\n\n"

/-- `_write_page`: write the page file and return its manifest
record. -/
def write_page (files : List (String × String)) (url : String) (title : Option String)
    (markdown : String) (index : Nat) (sourceType : String) (priority : Int) (tier : Nat)
    (now : String) : PageEntry × List (String × String) :=
  let filename := url_to_filename url index
  let content := frontmatterOf url title now sourceType priority tier ++ markdown
  ({ filename := filename, url := url, title := title, sourceType := sourceType,
     priority := priority, tier := tier, tokenEstimate := estimate_tokens markdown },
   putFile files filename content)

/-- The tier breakdown recomputed from a pages list (`tier_counts`
followed by the three bucket reads). -/
def breakdownOf (pages : List PageEntry) : TierBreakdown :=
  { tier1Critical := (pages.filter (fun p => p.tier = 1)).length,
    tier2Supporting := (pages.filter (fun p => p.tier = 2)).length,
    tier3Context := (pages.filter (fun p => p.tier = 3)).length }

/-- The source loop of `add_pages_to_corpus`: skip URLs already in the
manifest (a set computed once, before the loop) and sources without
truthy prefetched content; write every other page and append its
record. -/
def addLoop (existingUrls : List String) (now : String) :
    List Source → List PageEntry → List (String × String) → Nat → Nat →
    List PageEntry × List (String × String) × Nat
  | [], pages, files, _, added => (pages, files, added)
  | s :: rest, pages, files, idx, added =>
    if s.url ∈ existingUrls then addLoop existingUrls now rest pages files idx added
    else
      match s.content with
      | none => addLoop existingUrls now rest pages files idx added
      | some c =>
        if c = "" then addLoop existingUrls now rest pages files idx added
        else
          let written := write_page files s.url s.title c idx s.sourceType.value
            s.priority s.tier.val now
          addLoop existingUrls now rest (pages ++ [written.1]) written.2 (idx + 1) (added + 1)

/-- `add_pages_to_corpus`: fails without a manifest; recomputes the
aggregate counters and rewrites the manifest only when at least one
page was added. -/
def add_pages_to_corpus (corpus : Corpus) (sources : List Source) (now : String) :
    Except String (Nat × Corpus) :=
  match corpus.manifest with
  | none => .error "No manifest found"
  | some m =>
    let existingUrls := m.pages.map (·.url)
    let result := addLoop existingUrls now sources m.pages corpus.files (m.totalPages + 1) 0
    let added := result.2.2
    if 0 < added then
      .ok (added,
        { manifest := some
            { m with
              pages := result.1,
              totalPages := result.1.length,
              totalTokensEstimate := (result.1.map (·.tokenEstimate)).sum,
              tierBreakdown := breakdownOf result.1,
              updatedAt := now },
          files := result.2.1 })
    else .ok (added, { manifest := some m, files := result.2.1 })

/-- The front matter stripping of `load_corpus_as_context`:
`content.find("---", 3)` and, when found, drop up to and past it and
strip. -/
def strip_frontmatter (content : String) : String :=
  if strStartsWith content "---" then
    match findSubFrom content "---" 3 with
    | some i => pyStrip (String.mk (content.data.drop (i + 3)))
    | none => content
  else content

/-- The context rendering of one page: the source-attributed header
plus the body with front matter stripped. Used to state what a
successful load returns. -/
def page_context (files : List (String × String)) (p : PageEntry) : String :=
  "=== SOURCE: " ++ p.url ++ " ===\n\n" ++
    strip_frontmatter ((lookupA p.filename files).getD "")

/-- The page loop of `load_corpus_as_context`: a missing or empty
referenced file is a hard error. -/
def loadPagesLoop (files : List (String × String)) :
    List PageEntry → Except String (List String)
  | [] => .ok []
  | p :: rest =>
    match lookupA p.filename files with
    | none => .error ("Manifest references missing file: " ++ p.filename)
    | some content =>
      if pyStrip content = "" then .error ("Corpus file is empty: " ++ p.filename)
      else
        match loadPagesLoop files rest with
        | .error e => .error e
        | .ok parts =>
          .ok (("=== SOURCE: " ++ p.url ++ " ===\n\n" ++ strip_frontmatter content) :: parts)

/-- `load_corpus_as_context`. -/
def load_corpus_as_context (corpus : Corpus) : Except String String :=
  match corpus.manifest with
  | none => .error "No manifest found"
  | some m =>
    match loadPagesLoop corpus.files m.pages with
    | .error e => .error e
    | .ok parts =>
      if parts = [] then .error "No pages found in corpus"
      else .ok (joinSep "\n\n" parts)

/-! ## Domain crawling with stealth escalation (`corpus.py`)

`crawl` is the `crawl_url` oracle, keyed by the stealth flag (the URL,
limit and include paths are fixed for one `_crawl_domain` call):
`.ok pages` is a successful crawl, `.error e` a
`FirecrawlCrawlError`. -/

/-- A crawled page as returned by the crawl service. -/
structure CrawlPage where
  url : String
  title : Option String
  markdown : String
deriving Repr, DecidableEq

/-- The outcome of `_crawl_domain`: the pages kept, the recorded
errors, and the stealth flags of the crawl calls issued, in order. -/
structure CrawlDomainResult where
  pages : List CrawlPage
  errors : List String
  calls : List Bool
deriving Repr, DecidableEq

/-- `_crawl_domain`: crawl once; retry once with stealth when the
first crawl failed, or returned at most one page while stealth was off
and the limit exceeds 5; keep the stealth result only when it is
strictly larger (thin-result branch) or the first crawl failed
entirely. -/
def crawl_domain (crawl : Bool → Except String (List CrawlPage))
    (baseUrl : String) (limit : Nat) (stealth : Bool) : CrawlDomainResult :=
  match crawl stealth with
  | .ok pages =>
    if pages.length ≤ 1 ∧ stealth = false ∧ 5 < limit then
      match crawl true with
      | .ok stealthPages =>
        if pages.length < stealthPages.length then
          { pages := stealthPages, errors := [], calls := [stealth, true] }
        else { pages := pages, errors := [], calls := [stealth, true] }
      | .error _ => { pages := pages, errors := [], calls := [stealth, true] }
    else { pages := pages, errors := [], calls := [stealth] }
  | .error e =>
    if stealth = false then
      match crawl true with
      | .ok stealthPages => { pages := stealthPages, errors := [], calls := [stealth, true] }
      | .error e₂ =>
        { pages := [], errors := [baseUrl ++ ": " ++ e₂ ++ " (stealth also failed)"],
          calls := [stealth, true] }
    else
      { pages := [], errors := [baseUrl ++ ": " ++ e], calls := [stealth] }

/-! ## Teacher session (`teacher.py`)

Per attempt, the model response is an environment value `AttemptEnv`:
its tool calls, its text output, and the text the analyzer model
returns when the second-pass analysis is run. The gap search
(`search_for_gap` of `discovery.py`, whose outcome depends on the
search service) is an oracle `gapSearch`; `.error` models a raised
`SearchError`, which `run_teacher_session` catches and logs. -/

/-- One `tool_use` block of a model response. -/
structure ToolUse where
  name : String
  input : List (String × String)
deriving Repr, DecidableEq

/-- The environment of one attempt: the model response and the
analyzer response. -/
structure AttemptEnv where
  toolUses : List ToolUse
  textOutput : String
  analysisText : String
deriving Repr, DecidableEq

/-- `AttemptOutcome` of `teacher.py`. -/
structure AttemptOutcome where
  success : Bool
  output : String
  gapQuery : Option String := none
  errorMessage : Option String := none
  analysisSummary : Option String := none
  analysisRaw : Option String := none
deriving Repr, DecidableEq

/-- A trace entry (the fields of the `trace_entry` dict that the
embedding tracks). -/
structure TraceEntry where
  attempt : Nat
  toolCall : String
  textOutput : String
  gapQuery : Option String := none
  gapSourcesAdded : Option Nat := none
  gapSearchFailed : Bool := false
  analysisOutput : Option String := none
deriving Repr, DecidableEq

/-- `TeacherResult` of `teacher.py`. -/
structure TeacherResult where
  success : Bool
  trace : List TraceEntry := []
  finalOutput : String := ""
  attempts : Nat := 0
  gapsFilled : List String := []
deriving Repr, DecidableEq

/-- The exception taxonomy of `exceptions.py` that the session can
raise. -/
inductive SessionError where
  | gapDetection (msg : String)
  | analysis (msg : String)
  | teacherSession (msg : String)
  | corpusLoad (msg : String)
  | corpusUpdate (msg : String)
deriving Repr, DecidableEq

/-- `_parse_analysis_output`: decode the analyzer text into an
`AttemptOutcome` by its `COMPLETE:` / `INCOMPLETE:` / `AMBIGUOUS:`
marker. -/
def parse_analysis_output (analysisText attemptOutput : String) : AttemptOutcome :=
  let cleaned := pyStrip analysisText
  if strStartsWith cleaned "COMPLETE:" then
    { success := true, output := attemptOutput,
      analysisSummary := some (pyStrip (strDrop cleaned 9)),
      analysisRaw := some analysisText }
  else if strStartsWith cleaned "INCOMPLETE:" then
    let query := pyStrip (strDrop cleaned 11)
    if query = "" then
      { success := false, output := attemptOutput,
        errorMessage := some "Analyzer returned INCOMPLETE without a search query.",
        analysisRaw := some analysisText }
    else
      { success := false, output := attemptOutput, gapQuery := some query,
        analysisRaw := some analysisText }
  else if strStartsWith cleaned "AMBIGUOUS:" then
    let detail := pyStrip (strDrop cleaned 10)
    { success := false, output := attemptOutput,
      errorMessage := some (if detail = "" then "Analyzer returned AMBIGUOUS." else detail),
      analysisRaw := some analysisText }
  else
    { success := false, output := attemptOutput,
      errorMessage := some ("Analyzer output did not match expected format: " ++ analysisText),
      analysisRaw := some analysisText }

/-- `_extract_tool_use`: exactly one tool call or a
`GapDetectionError`. -/
def extractToolUse (env : AttemptEnv) : Except SessionError (String × List (String × String)) :=
  match env.toolUses with
  | [t] => .ok (t.name, t.input)
  | other => .error (.gapDetection
      ("Expected exactly one tool call, got " ++ toString other.length ++ "."))

/-- `_require_tool_field`: a missing or blank string field is a
`GapDetectionError`; the value is returned stripped. -/
def requireToolField (toolName : String) (toolInput : List (String × String))
    (field : String) : Except SessionError String :=
  match lookupA field toolInput with
  | none => .error (.gapDetection
      ("Tool " ++ toolName ++ " missing required field " ++ field ++ "."))
  | some v =>
    if pyStrip v = "" then
      .error (.gapDetection
        ("Tool " ++ toolName ++ " missing required field " ++ field ++ "."))
    else .ok (pyStrip v)

/-- The result of one attempt of the session loop. -/
inductive StepResult where
  | done (r : TeacherResult)
  | fail (e : SessionError)
  | next (corpus : Corpus) (trace : List TraceEntry) (gapsFilled : List String)
deriving Repr

/-- The tail of the attempt body shared by both tool branches: success
returns, a gap query triggers the gap search and enrichment (a search
failure is logged on the trace entry and tolerated), and an outcome
with neither is an immediate `AnalysisError`. The second component is
the list of gap-search invocations made, in order. -/
def handleOutcome (gapSearch : String → Except String (List Source)) (now : String)
    (attemptNo : Nat) (corpus : Corpus) (trace : List TraceEntry)
    (gapsFilled : List String) (entry : TraceEntry) (outcome : AttemptOutcome) :
    StepResult × List String :=
  if outcome.success then
    (.done
      { success := true, trace := trace ++ [entry], finalOutput := outcome.output,
        attempts := attemptNo, gapsFilled := gapsFilled }, [])
  else
    match outcome.gapQuery with
    | some q =>
      let entry₁ := { entry with gapQuery := some q }
      match gapSearch q with
      | .ok gapSources =>
        if gapSources.isEmpty then
          (.next corpus (trace ++ [entry₁]) gapsFilled, [q])
        else
          match add_pages_to_corpus corpus gapSources now with
          | .ok result =>
            (.next result.2 (trace ++ [{ entry₁ with gapSourcesAdded := some result.1 }])
              (gapsFilled ++ [q]), [q])
          | .error e => (.fail (.corpusUpdate e), [q])
      | .error _ =>
        (.next corpus (trace ++ [{ entry₁ with gapSearchFailed := true }]) gapsFilled, [q])
    | none =>
      (.fail (.analysis
        ("Task failed on attempt " ++ toString attemptNo ++
          " without identifiable knowledge gap. Analyzer output: " ++
          (match outcome.analysisRaw with
            | some raw => if raw = "" then outcome.errorMessage.getD "None" else raw
            | none => outcome.errorMessage.getD "None"))), [])

/-- One attempt of `run_teacher_session`: load the corpus, extract the
single tool call, run the second-pass analysis on a completion claim
or take the tool-supplied gap query, then dispatch on the outcome. -/
def attemptStep (gapSearch : String → Except String (List Source)) (env : AttemptEnv)
    (now : String) (attemptNo : Nat) (corpus : Corpus) (trace : List TraceEntry)
    (gapsFilled : List String) : StepResult × List String :=
  match load_corpus_as_context corpus with
  | .error e => (.fail (.corpusLoad e), [])
  | .ok _ =>
    match extractToolUse env with
    | .error e => (.fail e, [])
    | .ok (toolName, toolInput) =>
      if toolName = "task_complete" then
        match requireToolField toolName toolInput "solution" with
        | .error e => (.fail e, [])
        | .ok solution =>
          match requireToolField toolName toolInput "summary" with
          | .error e => (.fail e, [])
          | .ok _summary =>
            let outcome := parse_analysis_output env.analysisText solution
            handleOutcome gapSearch now attemptNo corpus trace gapsFilled
              { attempt := attemptNo, toolCall := toolName,
                textOutput := env.textOutput,
                analysisOutput := outcome.analysisRaw } outcome
      else if toolName = "request_documentation" then
        match requireToolField toolName toolInput "search_query" with
        | .error e => (.fail e, [])
        | .ok gapQuery =>
          match requireToolField toolName toolInput "reason" with
          | .error e => (.fail e, [])
          | .ok _reason =>
            handleOutcome gapSearch now attemptNo corpus trace gapsFilled
              { attempt := attemptNo, toolCall := toolName,
                textOutput := env.textOutput }
              { success := false, output := env.textOutput, gapQuery := some gapQuery }
      else (.fail (.gapDetection ("Unknown tool call " ++ toolName ++ ".")), [])

/-- The bounded attempt loop: `attemptsLeft` counts the remaining
iterations of `for attempt in range(1, max_attempts + 1)`; running out
raises the `TeacherSessionError`. -/
def runAttempts (gapSearch : String → Except String (List Source))
    (envs : Nat → AttemptEnv) (now : String) (maxAttempts : Nat) :
    Nat → Nat → Corpus → List TraceEntry → List String →
    Except SessionError TeacherResult
  | 0, _, _, _, _ =>
    .error (.teacherSession
      ("Max attempts (" ++ toString maxAttempts ++ ") reached without success"))
  | n + 1, attemptNo, corpus, trace, gapsFilled =>
    match attemptStep gapSearch (envs attemptNo) now attemptNo corpus trace gapsFilled with
    | (.done r, _) => .ok r
    | (.fail e, _) => .error e
    | (.next corpus₁ trace₁ gapsFilled₁, _) =>
      runAttempts gapSearch envs now maxAttempts n (attemptNo + 1) corpus₁ trace₁ gapsFilled₁

/-- `run_teacher_session`. -/
def run_teacher_session (gapSearch : String → Except String (List Source))
    (envs : Nat → AttemptEnv) (now : String) (maxAttempts : Nat) (corpus : Corpus) :
    Except SessionError TeacherResult :=
  runAttempts gapSearch envs now maxAttempts maxAttempts 1 corpus [] []

/-! ## Helper lemmas -/

theorem mem_flatMap_of_mem {α β : Type} {f : α → List β} {l : List α} {x : α} {y : β}
    (hx : x ∈ l) (hy : y ∈ f x) : y ∈ l.flatMap f := by
  induction l with
  | nil => cases hx
  | cons a rest ih =>
    rcases List.mem_cons.mp hx with h | h
    · subst h
      exact List.mem_append.mpr (Or.inl hy)
    · exact List.mem_append.mpr (Or.inr (ih h))

theorem sandboxLoop_all_skipped (pyCompile shCheck : String → SandboxResult)
    (blocks : List (String × String))
    (h : ∀ b ∈ blocks,
      b.1 ≠ "python" ∧ b.1 ≠ "py" ∧ b.1 ≠ "bash" ∧ b.1 ≠ "sh" ∧ b.1 ≠ "shell") :
    sandboxLoop pyCompile shCheck blocks = { success := true, exitCode := 0 } := by
  induction blocks with
  | nil => rfl
  | cons b rest ih =>
    obtain ⟨h₁, h₂, h₃, h₄, h₅⟩ := h b (List.mem_cons_self b rest)
    have hrest := ih (fun x hx => h x (List.mem_cons_of_mem b hx))
    obtain ⟨lang, code⟩ := b
    simp only at h₁ h₂ h₃ h₄ h₅
    simp [sandboxLoop, h₁, h₂, h₃, h₄, h₅, hrest]

/-! ## Claim theorems -/

/-- Claim C8: for every (tier, origin) pair with tier in 1..3 and
origin in seed, mapped, searched, the priority function returns 1 for
seed origin regardless of tier, base+1 for mapped and base+2 for
searched, where base is 1, 4, 7 for tiers 1, 2, 3; consequently for a
fixed origin, priority is monotonically nondecreasing in tier. -/
theorem C8_tier_priority :
    (∀ t : SourceTier, tier_to_priority t .seed = 1) ∧
    (∀ t : SourceTier, tier_to_priority t .mapped = tierBase t + 1) ∧
    (∀ t : SourceTier, tier_to_priority t .searched = tierBase t + 2) ∧
    tierBase .tier1 = 1 ∧ tierBase .tier2 = 4 ∧ tierBase .tier3 = 7 ∧
    (∀ (o : SourceType) (t t' : SourceTier), t.val ≤ t'.val →
      tier_to_priority t o ≤ tier_to_priority t' o) := by
  refine ⟨fun t => rfl, fun t => rfl, fun t => rfl, rfl, rfl, rfl, ?_⟩
  intro o t t'
  cases o <;> cases t <;> cases t' <;> decide

/-- Witness for C8 at a concrete input: tier 1 to tier 2 with mapped
origin is monotone. -/
theorem C8_tier_priority_witness :
    tier_to_priority .tier1 .mapped ≤ tier_to_priority .tier2 .mapped :=
  C8_tier_priority.2.2.2.2.2.2 .mapped .tier1 .tier2 (by decide)

/-- Claim C10: in the sandbox validation pass only python/py and
bash/sh/shell blocks are checked: an output whose blocks are all
tagged otherwise succeeds without examining the contents (for every
checker oracle), and an output with no code block is rejected with
exit code 2. -/
theorem C10_sandbox_checked_languages :
    ∀ (pyCompile shCheck : String → SandboxResult) (output task : String),
      (extract_code_blocks output ≠ [] →
        (∀ b ∈ extract_code_blocks output,
          b.1 ≠ "python" ∧ b.1 ≠ "py" ∧ b.1 ≠ "bash" ∧ b.1 ≠ "sh" ∧ b.1 ≠ "shell") →
        run_sandbox_validation pyCompile shCheck output task =
          { success := true, exitCode := 0 }) ∧
      (extract_code_blocks output = [] →
        run_sandbox_validation pyCompile shCheck output task =
          { success := false, exitCode := 2,
            stderr := "No runnable code blocks found for task: " ++ task }) := by
  intro pyCompile shCheck output task
  constructor
  · intro hne hall
    have hloop := sandboxLoop_all_skipped pyCompile shCheck (extract_code_blocks output) hall
    have hempty : (extract_code_blocks output).isEmpty = false := by
      cases hext : extract_code_blocks output with
      | nil => exact absurd hext hne
      | cons b rest => rfl
    simp [run_sandbox_validation, hempty, hloop]
  · intro hnil
    simp [run_sandbox_validation, hnil]

/-- Witness for C10 at a concrete input: a json-tagged block passes
even under checker oracles that reject everything, and the empty
output is rejected with exit code 2. -/
theorem C10_sandbox_checked_languages_witness :
    run_sandbox_validation (fun _ => { success := false, exitCode := 1 })
        (fun _ => { success := false, exitCode := 1 }) "```json\n[1]\n```" "t" =
      { success := true, exitCode := 0 } ∧
    run_sandbox_validation (fun _ => { success := false, exitCode := 1 })
        (fun _ => { success := false, exitCode := 1 }) "just words" "t" =
      { success := false, exitCode := 2,
        stderr := "No runnable code blocks found for task: t" } :=
  ⟨(C10_sandbox_checked_languages (fun _ => { success := false, exitCode := 1 })
      (fun _ => { success := false, exitCode := 1 }) "```json\n[1]\n```" "t").1
      (by decide) (by decide),
   (C10_sandbox_checked_languages (fun _ => { success := false, exitCode := 1 })
      (fun _ => { success := false, exitCode := 1 }) "just words" "t").2 (by decide)⟩

/-- Claim C3: a fenced python/py block whose contents fail the Python
parse oracle forces shadow validation to reject (for any sandbox
runner), while an output whose static pass yields no errors passes
when no sandbox runner is supplied, regardless of warnings. -/
theorem C3_shadow_static_errors :
    (∀ (pySyntax : String → Option String) (output task : String)
      (runner : Option (String → String → SandboxResult)) (lang code msg : String),
      (lang, code) ∈ extract_code_blocks output →
      (lang = "python" ∨ lang = "py") →
      pySyntax code = some msg →
      (shadow_validate_output pySyntax output task runner).passed = false) ∧
    (∀ (pySyntax : String → Option String) (output task : String),
      (fast_static_analysis pySyntax output).errors = [] →
      (shadow_validate_output pySyntax output task none).passed = true) := by
  constructor
  · intro pySyntax output task runner lang code msg hmem hlang hsyn
    have hblock : msg ∈ blockErrors pySyntax (lang, code) := by
      have hpy : (lang = "python" ∨ lang = "py") = True := eq_true hlang
      simp [blockErrors, hpy, hsyn]
    have herr : msg ∈ (fast_static_analysis pySyntax output).errors := by
      simp only [fast_static_analysis]
      exact List.mem_append.mpr (Or.inr (mem_flatMap_of_mem hmem hblock))
    have hne : (fast_static_analysis pySyntax output).errors.isEmpty = false := by
      cases hE : (fast_static_analysis pySyntax output).errors with
      | nil => rw [hE] at herr; cases herr
      | cons e rest => rfl
    simp [shadow_validate_output, hne]
  · intro pySyntax output task hE
    simp [shadow_validate_output, hE]

/-- Witness for C3 at concrete inputs: a python block that the parse
oracle rejects fails validation; an output with only a TODO warning
and no errors passes. -/
theorem C3_shadow_static_errors_witness :
    (shadow_validate_output (fun _ => some "Python syntax error: invalid syntax (line 1)")
      "```python\nbad(\n```" "t" none).passed = false ∧
    (shadow_validate_output (fun _ => none) "All done, TODO review" "t" none).passed = true :=
  ⟨C3_shadow_static_errors.1 (fun _ => some "Python syntax error: invalid syntax (line 1)")
      "```python\nbad(\n```" "t" none "python" "bad(\n"
      "Python syntax error: invalid syntax (line 1)" (by decide) (Or.inl rfl) rfl,
   C3_shadow_static_errors.2 (fun _ => none) "All done, TODO review" "t" (by decide)⟩

/-- Counterexample for C4: an output with no extractable code block
passes shadow validation when no sandbox runner is supplied, so the
claim that it is rejected regardless of the runner is false. -/
theorem C4_counterexample :
    extract_code_blocks "I finished the task." = [] ∧
    (shadow_validate_output (fun _ => none) "I finished the task." "t" none).passed = true := by
  constructor
  · decide
  · decide

/-- Claim C4 (amended): when a sandbox runner is supplied, a
claimed-completion output with no extractable code block is rejected
(the sandbox returns exit code 2, failing validation); without a
sandbox runner the absence of code blocks is only a warning, and the
output passes whenever the static pass produced no errors. -/
theorem C4_no_code_block :
    ∀ (pySyntax : String → Option String) (pyCompile shCheck : String → SandboxResult)
      (output task : String),
      extract_code_blocks output = [] →
      ((shadow_validate_output pySyntax output task
          (some (run_sandbox_validation pyCompile shCheck))).passed = false ∧
        ((fast_static_analysis pySyntax output).errors = [] →
          (shadow_validate_output pySyntax output task none).passed = true)) := by
  intro pySyntax pyCompile shCheck output task hnil
  have hsand : run_sandbox_validation pyCompile shCheck output task =
      { success := false, exitCode := 2,
        stderr := "No runnable code blocks found for task: " ++ task } := by
    simp [run_sandbox_validation, hnil]
  constructor
  · cases hE : (fast_static_analysis pySyntax output).errors.isEmpty with
    | false => simp [shadow_validate_output, hE]
    | true => simp [shadow_validate_output, hE, hsand]
  · intro hE
    simp [shadow_validate_output, hE]

/-- Witness for the amended C4 at a concrete input. -/
theorem C4_no_code_block_witness :
    (shadow_validate_output (fun _ => none) "I completed everything." "t"
      (some (run_sandbox_validation (fun _ => { success := true, exitCode := 0 })
        (fun _ => { success := true, exitCode := 0 })))).passed = false ∧
    (shadow_validate_output (fun _ => none) "I completed everything." "t" none).passed = true := by
  have h := C4_no_code_block (fun _ => none) (fun _ => { success := true, exitCode := 0 })
    (fun _ => { success := true, exitCode := 0 }) "I completed everything." "t" (by decide)
  exact ⟨h.1, h.2 (by decide)⟩

/-- A concrete crawled page used by the C7 fixtures. -/
def crawlPageAt (i : Nat) : CrawlPage where
  url := "https://d/p" ++ toString i
  title := none
  markdown := "m"

/-- Eight stealth pages for the C7 fixtures. -/
def stealthPages8 : List CrawlPage :=
  (List.range 8).map crawlPageAt

/-- A crawl oracle: one page without stealth, eight with stealth. -/
def crawlOracleThin : Bool → Except String (List CrawlPage) := fun stealth =>
  if stealth then .ok stealthPages8 else .ok [crawlPageAt 99]

/-- Counterexample for C7: with a crawl limit of 5 (a value the
assembler passes whenever its remaining page budget is small), a
non-stealth crawl returning exactly one page is not retried with
stealth at all, and the single page is kept even though a stealth
crawl would have returned eight pages. -/
theorem C7_counterexample :
    (crawl_domain crawlOracleThin "https://d" 5 false).calls = [false] ∧
    (crawl_domain crawlOracleThin "https://d" 5 false).pages.length = 1 ∧
    crawlOracleThin true = .ok stealthPages8 ∧ stealthPages8.length = 8 := by
  refine ⟨?_, ?_, rfl, ?_⟩ <;> decide

/-- Claim C7 (amended): for a non-stealth domain crawl, a crawl that
fails outright, or that returns at most one page while the limit
exceeds 5, is retried exactly once with stealth; in the thin-result
case the kept result is whichever crawl returned more pages (the
original on ties or when the stealth retry fails), and in the failure
case the stealth result (or nothing) is kept. -/
theorem C7_stealth_escalation :
    ∀ (crawl : Bool → Except String (List CrawlPage)) (baseUrl : String) (limit : Nat),
      (∀ pages, crawl false = .ok pages → pages.length ≤ 1 → 5 < limit →
        (crawl_domain crawl baseUrl limit false).calls = [false, true] ∧
        (∀ spages, crawl true = .ok spages →
          (crawl_domain crawl baseUrl limit false).pages.length =
            max pages.length spages.length) ∧
        (∀ e₂, crawl true = .error e₂ →
          (crawl_domain crawl baseUrl limit false).pages = pages)) ∧
      (∀ e, crawl false = .error e →
        (crawl_domain crawl baseUrl limit false).calls = [false, true] ∧
        (∀ spages, crawl true = .ok spages →
          (crawl_domain crawl baseUrl limit false).pages = spages) ∧
        (∀ e₂, crawl true = .error e₂ →
          (crawl_domain crawl baseUrl limit false).pages = [])) := by
  intro crawl baseUrl limit
  constructor
  · intro pages hok hthin hlimit
    have hcond : pages.length ≤ 1 ∧ false = false ∧ 5 < limit := ⟨hthin, rfl, hlimit⟩
    refine ⟨?_, ?_, ?_⟩
    · cases hs : crawl true with
      | ok spages =>
        by_cases hlt : pages.length < spages.length <;>
          simp [crawl_domain, hok, hcond, hs, hlt]
      | error e₂ => simp [crawl_domain, hok, hcond, hs]
    · intro spages hs
      by_cases hlt : pages.length < spages.length
      · simp [crawl_domain, hok, hcond, hs, hlt]
        omega
      · simp [crawl_domain, hok, hcond, hs, hlt]
        omega
    · intro e₂ hs
      simp [crawl_domain, hok, hcond, hs]
  · intro e herr
    refine ⟨?_, ?_, ?_⟩
    · cases hs : crawl true with
      | ok spages => simp [crawl_domain, herr, hs]
      | error e₂ => simp [crawl_domain, herr, hs]
    · intro spages hs
      simp [crawl_domain, herr, hs]
    · intro e₂ hs
      simp [crawl_domain, herr, hs]

/-- A crawl oracle for the C7 witness scenario: one page without
stealth, eight with stealth, limit 20. -/
def crawlOracleLimit20 : Bool → Except String (List CrawlPage) := fun stealth =>
  if stealth then .ok stealthPages8 else .ok [crawlPageAt 0]

/-- Witness for the amended C7 at the spec scenario: limit 20, one
page without stealth, eight with stealth; the retry happens and eight
pages are kept. -/
theorem C7_stealth_escalation_witness :
    (crawl_domain crawlOracleLimit20 "https://docs.example.com" 20 false).calls =
      [false, true] ∧
    (crawl_domain crawlOracleLimit20 "https://docs.example.com" 20 false).pages.length = 8 := by
  have h := (C7_stealth_escalation crawlOracleLimit20 "https://docs.example.com" 20).1
    [crawlPageAt 0] rfl (by decide) (by decide)
  refine ⟨h.1, ?_⟩
  rw [h.2.1 stealthPages8 rfl]
  decide

/-! ## Corpus loading and enrichment lemmas -/

theorem loadPagesLoop_error (files : List (String × String)) (pages : List PageEntry)
    (p : PageEntry) (hp : p ∈ pages)
    (hbad : lookupA p.filename files = none ∨
      ∃ c, lookupA p.filename files = some c ∧ pyStrip c = "") :
    ∃ e, loadPagesLoop files pages = .error e := by
  induction pages with
  | nil => cases hp
  | cons q rest ih =>
    rcases List.mem_cons.mp hp with h | h
    · subst h
      rcases hbad with hnone | ⟨c, hc, hcs⟩
      · exact ⟨"Manifest references missing file: " ++ p.filename,
          by simp [loadPagesLoop, hnone]⟩
      · exact ⟨"Corpus file is empty: " ++ p.filename,
          by simp [loadPagesLoop, hc, hcs]⟩
    · obtain ⟨e, he⟩ := ih h
      cases hq : lookupA q.filename files with
      | none => exact ⟨"Manifest references missing file: " ++ q.filename,
          by simp [loadPagesLoop, hq]⟩
      | some c =>
        by_cases hcs : pyStrip c = ""
        · exact ⟨"Corpus file is empty: " ++ q.filename,
            by simp [loadPagesLoop, hq, hcs]⟩
        · exact ⟨e, by simp [loadPagesLoop, hq, hcs, he]⟩

theorem loadPagesLoop_ok (files : List (String × String)) (pages : List PageEntry)
    (h : ∀ p ∈ pages, ∃ c, lookupA p.filename files = some c ∧ pyStrip c ≠ "") :
    loadPagesLoop files pages = .ok (pages.map (page_context files)) := by
  induction pages with
  | nil => rfl
  | cons q rest ih =>
    obtain ⟨c, hc, hcs⟩ := h q (List.mem_cons_self q rest)
    have hrest := ih (fun p hp => h p (List.mem_cons_of_mem q hp))
    simp [loadPagesLoop, hc, hcs, hrest, page_context]

theorem addLoop_skip_all (existingUrls : List String) (now : String) (sources : List Source)
    (pages : List PageEntry) (files : List (String × String)) (idx added : Nat)
    (h : ∀ s ∈ sources, s.url ∈ existingUrls) :
    addLoop existingUrls now sources pages files idx added = (pages, files, added) := by
  induction sources with
  | nil => rfl
  | cons s rest ih =>
    have hs := h s (List.mem_cons_self s rest)
    simp [addLoop, hs, ih (fun x hx => h x (List.mem_cons_of_mem s hx))]

theorem addLoop_add_all (existingUrls : List String) (now : String) (sources : List Source)
    (h : ∀ s ∈ sources, s.url ∉ existingUrls ∧ s.content.getD "" ≠ "") :
    ∀ (pages : List PageEntry) (files : List (String × String)) (idx added : Nat),
      ∃ (entries : List PageEntry) (files' : List (String × String)),
        addLoop existingUrls now sources pages files idx added =
          (pages ++ entries, files', added + sources.length) ∧
        entries.length = sources.length := by
  induction sources with
  | nil =>
    intro pages files idx added
    exact ⟨[], files, by simp [addLoop], rfl⟩
  | cons s rest ih =>
    intro pages files idx added
    obtain ⟨hmem, hcontent⟩ := h s (List.mem_cons_self s rest)
    cases hc : s.content with
    | none => rw [hc] at hcontent; simp at hcontent
    | some c =>
      have hcne : c ≠ "" := by rw [hc] at hcontent; simpa using hcontent
      obtain ⟨entries, files', heq, hlen⟩ :=
        ih (fun x hx => h x (List.mem_cons_of_mem s hx))
          (pages ++
            [(write_page files s.url s.title c idx s.sourceType.value s.priority
              s.tier.val now).1])
          (write_page files s.url s.title c idx s.sourceType.value s.priority
            s.tier.val now).2
          (idx + 1) (added + 1)
      refine ⟨(write_page files s.url s.title c idx s.sourceType.value s.priority
        s.tier.val now).1 :: entries, files', ?_, by simp [hlen]⟩
      have harr : added + 1 + rest.length = added + (rest.length + 1) := by omega
      simp only [addLoop, hmem, if_neg, hc, hcne, ite_false]
      rw [heq]
      simp [harr]

/-- The manifest produced by a strictly additive enrichment: pages
appended, counters and tier breakdown recomputed, timestamp updated. -/
def enrichedManifest (m : Manifest) (entries : List PageEntry) (now : String) : Manifest :=
  { m with
    pages := m.pages ++ entries,
    totalPages := (m.pages ++ entries).length,
    totalTokensEstimate := ((m.pages ++ entries).map (fun p => p.tokenEstimate)).sum,
    tierBreakdown := breakdownOf (m.pages ++ entries),
    updatedAt := now }

/-- Claim C5: corpus enrichment is URL-idempotent (sources whose URLs
are already in the manifest change nothing and 0 is returned) and
additive (N new content-bearing sources increase total pages by
exactly N, keep every prior page record including its filename as a
prefix, and recompute the token estimate and tier breakdown from the
new pages list). -/
theorem C5_enrichment :
    (∀ (m : Manifest) (files : List (String × String)) (sources : List Source) (now : String),
      (∀ s ∈ sources, s.url ∈ m.pages.map (fun p => p.url)) →
      add_pages_to_corpus { manifest := some m, files := files } sources now =
        .ok (0, { manifest := some m, files := files })) ∧
    (∀ (m : Manifest) (files : List (String × String)) (sources : List Source) (now : String),
      m.totalPages = m.pages.length → sources ≠ [] →
      (∀ s ∈ sources, s.url ∉ m.pages.map (fun p => p.url) ∧ s.content.getD "" ≠ "") →
      ∃ (entries : List PageEntry) (files' : List (String × String)),
        entries.length = sources.length ∧
        (m.pages ++ entries).length = m.totalPages + sources.length ∧
        add_pages_to_corpus { manifest := some m, files := files } sources now =
          .ok (sources.length,
            { manifest := some (enrichedManifest m entries now), files := files' })) := by
  constructor
  · intro m files sources now h
    have hloop := addLoop_skip_all (m.pages.map (fun p => p.url)) now sources m.pages files
      (m.totalPages + 1) 0 h
    simp [add_pages_to_corpus, hloop]
  · intro m files sources now hconsistent hne h
    obtain ⟨entries, files', heq, hlen⟩ :=
      addLoop_add_all (m.pages.map (fun p => p.url)) now sources h m.pages files
        (m.totalPages + 1) 0
    have hlenpos : 0 < sources.length := List.length_pos.mpr hne
    refine ⟨entries, files', hlen, by simp [hconsistent, hlen], ?_⟩
    simp [add_pages_to_corpus, heq, hlenpos, enrichedManifest]

/-! ## Concrete corpus fixtures -/

/-- A concrete manifest page record. -/
def pageA : PageEntry where
  filename := "001_x.md"
  url := "https://x"
  title := none
  sourceType := "seed"
  priority := 1
  tier := 1
  tokenEstimate := 1

/-- A concrete consistent manifest with one page. -/
def manifestA : Manifest where
  task := "t"
  seedUrl := none
  createdAt := "c"
  updatedAt := "c"
  pages := [pageA]
  totalPages := 1
  totalTokensEstimate := 1
  tierBreakdown := { tier1Critical := 1, tier2Supporting := 0, tier3Context := 0 }

/-- A concrete healthy corpus: the manifest page file exists and is
non-empty. -/
def corpusA : Corpus where
  manifest := some manifestA
  files := [("001_x.md", "hello")]

/-- The same manifest with the referenced page file missing on disk. -/
def corpusMissingFile : Corpus where
  manifest := some manifestA
  files := []

/-- A concrete new search source carrying prefetched content. -/
def gapSrc : Source where
  url := "https://y/docs"
  title := some "Y"
  sourceType := .searched
  priority := 9
  tier := .tier3
  content := some "body"

/-- Witness for C5 at concrete inputs: re-adding an already-present
URL is a no-op returning 0; adding one new content-bearing source
returns 1 and the enriched manifest. -/
theorem C5_enrichment_witness :
    add_pages_to_corpus corpusA
        [{ gapSrc with url := "https://x" }] "n2" = .ok (0, corpusA) ∧
    ∃ (entries : List PageEntry) (files' : List (String × String)),
      entries.length = 1 ∧
      (manifestA.pages ++ entries).length = manifestA.totalPages + 1 ∧
      add_pages_to_corpus corpusA [gapSrc] "n2" =
        .ok (1, { manifest := some (enrichedManifest manifestA entries "n2"),
                  files := files' }) := by
  constructor
  · exact C5_enrichment.1 manifestA corpusA.files [{ gapSrc with url := "https://x" }] "n2"
      (by decide)
  · exact C5_enrichment.2 manifestA corpusA.files [gapSrc] "n2" rfl (by decide) (by decide)

/-- Claim C6: a manifest entry whose page file is missing or empty
makes corpus loading fail with a load error (no partial context), and
when every referenced file exists and is non-empty the load returns
all pages, front matter stripped, in manifest order. -/
theorem C6_load_corpus_strict :
    ∀ (m : Manifest) (files : List (String × String)),
      ((∃ p ∈ m.pages, lookupA p.filename files = none ∨
          ∃ c, lookupA p.filename files = some c ∧ pyStrip c = "") →
        ∃ e, load_corpus_as_context { manifest := some m, files := files } = .error e) ∧
      ((∀ p ∈ m.pages, ∃ c, lookupA p.filename files = some c ∧ pyStrip c ≠ "") →
        m.pages ≠ [] →
        load_corpus_as_context { manifest := some m, files := files } =
          .ok (joinSep "\n\n" (m.pages.map (page_context files)))) := by
  intro m files
  constructor
  · rintro ⟨p, hp, hbad⟩
    obtain ⟨e, he⟩ := loadPagesLoop_error files m.pages p hp hbad
    exact ⟨e, by simp [load_corpus_as_context, he]⟩
  · intro hgood hne
    have hloop := loadPagesLoop_ok files m.pages hgood
    have hmapne : m.pages.map (page_context files) ≠ [] := by
      simpa using hne
    simp [load_corpus_as_context, hloop, hmapne]

/-- Witness for C6 at concrete inputs: the corpus with a missing page
file fails to load; the healthy corpus loads to the full context. -/
theorem C6_load_corpus_strict_witness :
    (∃ e, load_corpus_as_context corpusMissingFile = .error e) ∧
    load_corpus_as_context corpusA =
      .ok (joinSep "\n\n" (manifestA.pages.map (page_context corpusA.files))) := by
  constructor
  · exact (C6_load_corpus_strict manifestA corpusMissingFile.files).1
      ⟨pageA, by decide, Or.inl rfl⟩
  · exact (C6_load_corpus_strict manifestA corpusA.files).2
      (by
        intro p hp
        simp only [manifestA, List.mem_singleton] at hp
        subst hp
        exact ⟨"hello", rfl, by decide⟩)
      (by decide)

/-! ## Deduplication lemmas -/

theorem lookupA_append {α : Type} (k : String) (l₁ l₂ : List (String × α)) :
    lookupA k (l₁ ++ l₂) =
      match lookupA k l₁ with
      | some v => some v
      | none => lookupA k l₂ := by
  induction l₁ with
  | nil => rfl
  | cons kv rest ih =>
    obtain ⟨k₂, v⟩ := kv
    by_cases hk : k₂ = k
    · simp [lookupA, hk]
    · simp [lookupA, hk, ih]

theorem lookupA_eq_none {α : Type} (k : String) (l : List (String × α)) :
    lookupA k l = none ↔ k ∉ l.map Prod.fst := by
  induction l with
  | nil => simp [lookupA]
  | cons kv rest ih =>
    obtain ⟨k₂, v⟩ := kv
    by_cases hk : k₂ = k
    · subst hk
      simp [lookupA]
    · simp only [lookupA, if_neg hk, ih, List.map_cons, List.mem_cons]
      constructor
      · intro h hor
        rcases hor with h₁ | h₂
        · exact hk h₁.symm
        · exact h h₂
      · intro h hm
        exact h (Or.inr hm)

theorem lookupA_replaceKey_self (k : String) (s : Source) (seen : List (String × Source))
    {v : Source} (h : lookupA k seen = some v) :
    lookupA k (replaceKey k s seen) = some s := by
  induction seen with
  | nil => simp [lookupA] at h
  | cons kv rest ih =>
    obtain ⟨k₂, v₂⟩ := kv
    by_cases hk : k₂ = k
    · rw [replaceKey, if_pos hk, lookupA, if_pos rfl]
    · rw [lookupA, if_neg hk] at h
      rw [replaceKey, if_neg hk, lookupA, if_neg hk]
      exact ih h

theorem lookupA_replaceKey_ne (k k' : String) (s : Source) (seen : List (String × Source))
    (hne : k' ≠ k) : lookupA k' (replaceKey k s seen) = lookupA k' seen := by
  have hne' : ¬(k = k') := fun h => hne h.symm
  induction seen with
  | nil => rfl
  | cons kv rest ih =>
    obtain ⟨k₂, v₂⟩ := kv
    by_cases hk : k₂ = k
    · subst hk
      rw [replaceKey, if_pos rfl, lookupA, if_neg hne', lookupA, if_neg hne']
      exact ih
    · by_cases hk₂ : k₂ = k'
      · rw [replaceKey, if_neg hk, lookupA, if_pos hk₂, lookupA, if_pos hk₂]
      · rw [replaceKey, if_neg hk, lookupA, if_neg hk₂, lookupA, if_neg hk₂]
        exact ih

theorem keys_replaceKey (k : String) (s : Source) (seen : List (String × Source)) :
    (replaceKey k s seen).map Prod.fst = seen.map Prod.fst := by
  induction seen with
  | nil => rfl
  | cons kv rest ih =>
    obtain ⟨k₂, v₂⟩ := kv
    by_cases hk : k₂ = k
    · subst hk
      rw [replaceKey, if_pos rfl, List.map_cons, List.map_cons, ih]
    · rw [replaceKey, if_neg hk, List.map_cons, List.map_cons, ih]

theorem dedupStep_none {seen : List (String × Source)} {s : Source}
    (hfind : lookupA (normalize_url s.url) seen = none) :
    dedupStep seen s = seen ++ [(normalize_url s.url, s)] := by
  simp only [dedupStep]
  rw [hfind]

theorem dedupStep_some_lt {seen : List (String × Source)} {s cur : Source}
    (hfind : lookupA (normalize_url s.url) seen = some cur)
    (hlt : s.priority < cur.priority) :
    dedupStep seen s = replaceKey (normalize_url s.url) s seen := by
  simp only [dedupStep]
  rw [hfind]
  exact if_pos hlt

theorem dedupStep_some_ge {seen : List (String × Source)} {s cur : Source}
    (hfind : lookupA (normalize_url s.url) seen = some cur)
    (hge : ¬s.priority < cur.priority) :
    dedupStep seen s = seen := by
  simp only [dedupStep]
  rw [hfind]
  exact if_neg hge

/-- The invariant of the `seen` dictionary: keys are distinct and
every entry is stored under the normalized URL of its value. -/
def SeenOK (seen : List (String × Source)) : Prop :=
  (seen.map Prod.fst).Nodup ∧ ∀ kv ∈ seen, normalize_url kv.2.url = kv.1

theorem seenOK_nil : SeenOK [] := ⟨List.nodup_nil, by simp⟩

theorem mem_replaceKey {k : String} {s : Source} {seen : List (String × Source)}
    {kv : String × Source} (h : kv ∈ replaceKey k s seen) :
    kv ∈ seen ∨ kv = (k, s) := by
  induction seen with
  | nil => cases h
  | cons kv₂ rest ih =>
    obtain ⟨k₂, v₂⟩ := kv₂
    by_cases hk : k₂ = k
    · rw [replaceKey, if_pos hk] at h
      rcases List.mem_cons.mp h with h | h
      · exact Or.inr h
      · rcases ih h with h | h
        · exact Or.inl (List.mem_cons_of_mem _ h)
        · exact Or.inr h
    · rw [replaceKey, if_neg hk] at h
      rcases List.mem_cons.mp h with h | h
      · exact Or.inl (h ▸ List.mem_cons_self _ _)
      · rcases ih h with h | h
        · exact Or.inl (List.mem_cons_of_mem _ h)
        · exact Or.inr h

theorem seenOK_dedupStep {seen : List (String × Source)} (hOK : SeenOK seen) (s : Source) :
    SeenOK (dedupStep seen s) := by
  cases hfind : lookupA (normalize_url s.url) seen with
  | none =>
    rw [dedupStep_none hfind]
    refine ⟨?_, ?_⟩
    · have hk : normalize_url s.url ∉ seen.map Prod.fst := (lookupA_eq_none _ _).mp hfind
      simp only [List.map_append, List.map_cons, List.map_nil]
      rw [List.nodup_append]
      exact ⟨hOK.1, List.nodup_singleton _, by simpa using hk⟩
    · intro kv hkv
      rcases List.mem_append.mp hkv with h | h
      · exact hOK.2 kv h
      · simp only [List.mem_singleton] at h
        subst h
        rfl
  | some cur =>
    by_cases hlt : s.priority < cur.priority
    · rw [dedupStep_some_lt hfind hlt]
      refine ⟨?_, ?_⟩
      · rw [keys_replaceKey]
        exact hOK.1
      · intro kv hkv
        rcases mem_replaceKey hkv with h | h
        · exact hOK.2 kv h
        · subst h
          rfl
    · rw [dedupStep_some_ge hfind hlt]
      exact hOK

theorem seenOK_foldl {seen : List (String × Source)} (hOK : SeenOK seen)
    (l : List Source) : SeenOK (l.foldl dedupStep seen) := by
  induction l generalizing seen with
  | nil => exact hOK
  | cons s rest ih => exact ih (seenOK_dedupStep hOK s)

theorem lookupA_dedupStep_mono {seen : List (String × Source)} {k : String} {v : Source}
    (h : lookupA k seen = some v) (s : Source) :
    ∃ v', lookupA k (dedupStep seen s) = some v' ∧ v'.priority ≤ v.priority := by
  cases hfind : lookupA (normalize_url s.url) seen with
  | none =>
    refine ⟨v, ?_, le_refl _⟩
    rw [dedupStep_none hfind, lookupA_append, h]
  | some cur =>
    by_cases hk : k = normalize_url s.url
    · subst hk
      rw [h] at hfind
      injection hfind with hcur
      subst hcur
      by_cases hlt : s.priority < v.priority
      · exact ⟨s, by rw [dedupStep_some_lt h hlt, lookupA_replaceKey_self _ _ _ h],
          le_of_lt hlt⟩
      · exact ⟨v, by rw [dedupStep_some_ge h hlt, h], le_refl _⟩
    · by_cases hlt : s.priority < cur.priority
      · exact ⟨v, by rw [dedupStep_some_lt hfind hlt,
          lookupA_replaceKey_ne _ _ _ _ hk, h], le_refl _⟩
      · exact ⟨v, by rw [dedupStep_some_ge hfind hlt, h], le_refl _⟩

theorem lookupA_foldl_mono {seen : List (String × Source)} {k : String} {v : Source}
    (h : lookupA k seen = some v) (l : List Source) :
    ∃ v', lookupA k (l.foldl dedupStep seen) = some v' ∧ v'.priority ≤ v.priority := by
  induction l generalizing seen v with
  | nil => exact ⟨v, h, le_refl _⟩
  | cons s rest ih =>
    obtain ⟨v₁, h₁, hle₁⟩ := lookupA_dedupStep_mono h s
    obtain ⟨v₂, h₂, hle₂⟩ := ih h₁
    exact ⟨v₂, h₂, le_trans hle₂ hle₁⟩

theorem lookupA_foldl_of_mem {l : List Source} {x : Source} (hx : x ∈ l) :
    ∀ seen, ∃ v, lookupA (normalize_url x.url) (l.foldl dedupStep seen) = some v ∧
      v.priority ≤ x.priority := by
  induction l with
  | nil => cases hx
  | cons s rest ih =>
    intro seen
    rcases List.mem_cons.mp hx with h | h
    · subst h
      have hstep : ∃ v₁, lookupA (normalize_url x.url) (dedupStep seen x) = some v₁ ∧
          v₁.priority ≤ x.priority := by
        cases hfind : lookupA (normalize_url x.url) seen with
        | none =>
          refine ⟨x, ?_, le_refl _⟩
          rw [dedupStep_none hfind, lookupA_append, hfind, lookupA, if_pos rfl]
        | some cur =>
          by_cases hlt : x.priority < cur.priority
          · exact ⟨x, by rw [dedupStep_some_lt hfind hlt,
              lookupA_replaceKey_self _ _ _ hfind], le_refl _⟩
          · exact ⟨cur, by rw [dedupStep_some_ge hfind hlt, hfind], le_of_not_lt hlt⟩
      obtain ⟨v₁, h₁, hle₁⟩ := hstep
      obtain ⟨v₂, h₂, hle₂⟩ := lookupA_foldl_mono h₁ rest
      exact ⟨v₂, h₂, le_trans hle₂ hle₁⟩
    · exact ih h (dedupStep seen s)

theorem lookupA_some_mem {α : Type} {k : String} {l : List (String × α)} {v : α}
    (h : lookupA k l = some v) : (k, v) ∈ l := by
  induction l with
  | nil => simp [lookupA] at h
  | cons kv rest ih =>
    obtain ⟨k₂, v₂⟩ := kv
    by_cases hk : k₂ = k
    · subst hk
      simp only [lookupA, if_pos rfl] at h
      injection h with h
      subst h
      exact List.mem_cons_self _ _
    · simp only [lookupA, if_neg hk] at h
      exact List.mem_cons_of_mem _ (ih h)

theorem lookupA_of_mem_nodup {l : List (String × Source)} (hnd : (l.map Prod.fst).Nodup)
    {k : String} {v : Source} (h : (k, v) ∈ l) : lookupA k l = some v := by
  induction l with
  | nil => cases h
  | cons kv rest ih =>
    obtain ⟨k₂, v₂⟩ := kv
    rw [List.map_cons, List.nodup_cons] at hnd
    rcases List.mem_cons.mp h with heq | hmem
    · injection heq with h₁ h₂
      subst h₁
      subst h₂
      simp [lookupA]
    · have hk : k₂ ≠ k := by
        intro hkk
        subst hkk
        exact hnd.1 (List.mem_map.mpr ⟨_, hmem, rfl⟩)
      simp only [lookupA, if_neg hk]
      exact ih hnd.2 hmem

theorem foldl_fresh {l : List Source} :
    ∀ seen, (∀ x ∈ l, lookupA (normalize_url x.url) seen = none) →
      (l.map (fun s => normalize_url s.url)).Nodup →
      l.foldl dedupStep seen = seen ++ l.map (fun s => (normalize_url s.url, s)) := by
  induction l with
  | nil =>
    intro seen _ _
    simp
  | cons s rest ih =>
    intro seen hfresh hnd
    have hs := hfresh s (List.mem_cons_self s rest)
    have hstep : dedupStep seen s = seen ++ [(normalize_url s.url, s)] := dedupStep_none hs
    rw [List.map_cons, List.nodup_cons] at hnd
    have hfresh' : ∀ x ∈ rest,
        lookupA (normalize_url x.url) (seen ++ [(normalize_url s.url, s)]) = none := by
      intro x hx
      rw [lookupA_append, hfresh x (List.mem_cons_of_mem s hx)]
      have hxs : normalize_url s.url ≠ normalize_url x.url := by
        intro hh
        exact hnd.1 (hh ▸ List.mem_map_of_mem (fun s => normalize_url s.url) hx)
      simp [lookupA, hxs]
    rw [List.foldl_cons, hstep, ih _ hfresh' hnd.2, List.append_assoc]
    rfl

theorem dedup_of_nodup {l : List Source}
    (hnd : (l.map (fun s => normalize_url s.url)).Nodup) :
    deduplicate_sources l = l := by
  unfold deduplicate_sources
  rw [foldl_fresh [] (fun x _ => rfl) hnd]
  simp only [List.nil_append, List.map_map]
  induction l with
  | nil => rfl
  | cons s rest ih => simp_all

theorem map_norm_output {seen : List (String × Source)}
    (hcoh : ∀ kv ∈ seen, normalize_url kv.2.url = kv.1) :
    (seen.map Prod.snd).map (fun s => normalize_url s.url) = seen.map Prod.fst := by
  induction seen with
  | nil => rfl
  | cons kv rest ih =>
    simp only [List.map_cons]
    rw [hcoh kv (List.mem_cons_self _ _),
      ih (fun x hx => hcoh x (List.mem_cons_of_mem _ hx))]

/-- Claim C9: source deduplication is idempotent, and of any two input
sources sharing a normalized URL (trailing slashes stripped) only the
one with the strictly lower priority can survive: the higher-priority
one is dropped and the surviving entry for that URL has priority at
most the lower one. -/
theorem C9_deduplication :
    (∀ sources : List Source,
      deduplicate_sources (deduplicate_sources sources) = deduplicate_sources sources) ∧
    (∀ (sources : List Source) (a b : Source),
      a ∈ sources → b ∈ sources →
      normalize_url a.url = normalize_url b.url → a.priority < b.priority →
      b ∉ deduplicate_sources sources ∧
      ∃ c ∈ deduplicate_sources sources,
        normalize_url c.url = normalize_url a.url ∧ c.priority ≤ a.priority) := by
  have hOKfold : ∀ sources : List Source, SeenOK (sources.foldl dedupStep []) :=
    fun sources => seenOK_foldl seenOK_nil sources
  constructor
  · intro sources
    apply dedup_of_nodup
    show ((sources.foldl dedupStep []).map Prod.snd).map (fun s => normalize_url s.url) |>.Nodup
    rw [map_norm_output (hOKfold sources).2]
    exact (hOKfold sources).1
  · intro sources a b ha hb hnorm hpr
    obtain ⟨v, hv, hvle⟩ := lookupA_foldl_of_mem ha []
    constructor
    · intro hbmem
      obtain ⟨kv, hkvmem, hkv2⟩ := List.mem_map.mp hbmem
      have hkv : kv = (normalize_url b.url, b) := by
        obtain ⟨kv₁, kv₂⟩ := kv
        have h₁ := (hOKfold sources).2 _ hkvmem
        simp only at hkv2 h₁
        rw [hkv2] at h₁
        rw [← h₁, hkv2]
      have hlb : lookupA (normalize_url b.url) (sources.foldl dedupStep []) = some b := by
        apply lookupA_of_mem_nodup (hOKfold sources).1
        rw [← hkv]
        exact hkvmem
      rw [← hnorm, hv] at hlb
      injection hlb with hvb
      rw [hvb] at hvle
      exact absurd (lt_of_le_of_lt hvle hpr) (lt_irrefl _)
    · refine ⟨v, List.mem_map_of_mem Prod.snd (lookupA_some_mem hv), ?_, hvle⟩
      exact (hOKfold sources).2 _ (lookupA_some_mem hv)

/-- Two concrete sources with the same normalized URL. -/
def dupHigh : Source where
  url := "https://x/"
  title := none
  sourceType := .seed
  priority := 1
  tier := .tier1

/-- A lower-authority source with the same normalized URL. -/
def dupLow : Source where
  url := "https://x"
  title := none
  sourceType := .searched
  priority := 9
  tier := .tier3

/-- Witness for C9 at concrete inputs: the priority-9 duplicate is
dropped and deduplication is idempotent there. -/
theorem C9_deduplication_witness :
    dupLow ∉ deduplicate_sources [dupHigh, dupLow] ∧
    deduplicate_sources (deduplicate_sources [dupHigh, dupLow]) =
      deduplicate_sources [dupHigh, dupLow] := by
  have h := C9_deduplication.2 [dupHigh, dupLow] dupHigh dupLow (by decide) (by decide)
    (by decide) (by decide)
  exact ⟨h.1, C9_deduplication.1 [dupHigh, dupLow]⟩

/-! ## Teacher session lemmas -/

theorem strStartsWith_head {s p : String} {c : Char} {rest : List Char}
    (hp : p.data = c :: rest) (h : strStartsWith s p = true) :
    ∃ t, s.data = c :: t := by
  unfold strStartsWith at h
  rw [hp] at h
  cases hd : s.data with
  | nil =>
    rw [hd] at h
    simp [List.isPrefixOf] at h
  | cons e es =>
    rw [hd] at h
    simp only [List.isPrefixOf, Bool.and_eq_true, beq_iff_eq] at h
    refine ⟨es, ?_⟩
    rw [h.1]

theorem strStartsWith_false_of_head {s p : String} {c d : Char} {t rest : List Char}
    (hs : s.data = c :: t) (hp : p.data = d :: rest) (hne : (d == c) = false) :
    strStartsWith s p = false := by
  unfold strStartsWith
  rw [hs, hp]
  simp [List.isPrefixOf, hne]

theorem incData : "INCOMPLETE:".data = 'I' :: "NCOMPLETE:".data := by decide

theorem compData : "COMPLETE:".data = 'C' :: "OMPLETE:".data := by decide

theorem ambData : "AMBIGUOUS:".data = 'A' :: "MBIGUOUS:".data := by decide

theorem incomplete_not_complete {s : String}
    (h : strStartsWith s "INCOMPLETE:" = true) : strStartsWith s "COMPLETE:" = false := by
  obtain ⟨t, ht⟩ := strStartsWith_head incData h
  exact strStartsWith_false_of_head ht compData (by decide)

theorem ambiguous_not_complete {s : String}
    (h : strStartsWith s "AMBIGUOUS:" = true) : strStartsWith s "COMPLETE:" = false := by
  obtain ⟨t, ht⟩ := strStartsWith_head ambData h
  exact strStartsWith_false_of_head ht compData (by decide)

theorem ambiguous_not_incomplete {s : String}
    (h : strStartsWith s "AMBIGUOUS:" = true) : strStartsWith s "INCOMPLETE:" = false := by
  obtain ⟨t, ht⟩ := strStartsWith_head ambData h
  exact strStartsWith_false_of_head ht incData (by decide)

theorem parse_incomplete (attemptOutput : String) {analysisText : String}
    (hstart : strStartsWith (pyStrip analysisText) "INCOMPLETE:" = true)
    (hq : pyStrip (strDrop (pyStrip analysisText) 11) ≠ "") :
    parse_analysis_output analysisText attemptOutput =
      { success := false, output := attemptOutput,
        gapQuery := some (pyStrip (strDrop (pyStrip analysisText) 11)),
        analysisRaw := some analysisText } := by
  have hC := incomplete_not_complete hstart
  simp [parse_analysis_output, hC, hstart, hq]

theorem parse_ambiguous (attemptOutput : String) {analysisText : String}
    (hstart : strStartsWith (pyStrip analysisText) "AMBIGUOUS:" = true) :
    parse_analysis_output analysisText attemptOutput =
      { success := false, output := attemptOutput,
        errorMessage := some (if pyStrip (strDrop (pyStrip analysisText) 10) = "" then
          "Analyzer returned AMBIGUOUS." else pyStrip (strDrop (pyStrip analysisText) 10)),
        analysisRaw := some analysisText } := by
  have hC := ambiguous_not_complete hstart
  have hI := ambiguous_not_incomplete hstart
  simp [parse_analysis_output, hC, hI, hstart]

theorem parse_unrecognized (attemptOutput : String) {analysisText : String}
    (hC : strStartsWith (pyStrip analysisText) "COMPLETE:" = false)
    (hI : strStartsWith (pyStrip analysisText) "INCOMPLETE:" = false)
    (hA : strStartsWith (pyStrip analysisText) "AMBIGUOUS:" = false) :
    parse_analysis_output analysisText attemptOutput =
      { success := false, output := attemptOutput,
        errorMessage := some ("Analyzer output did not match expected format: " ++ analysisText),
        analysisRaw := some analysisText } := by
  simp [parse_analysis_output, hC, hI, hA]

theorem add_pages_ok {corpus : Corpus} {m : Manifest} (hm : corpus.manifest = some m)
    (sources : List Source) (now : String) :
    ∃ r, add_pages_to_corpus corpus sources now = .ok r := by
  unfold add_pages_to_corpus
  rw [hm]
  dsimp only
  split
  · exact ⟨_, rfl⟩
  · exact ⟨_, rfl⟩

theorem attemptStep_task_complete
    (gapSearch : String → Except String (List Source)) (env : AttemptEnv) (now : String)
    (attemptNo : Nat) (corpus : Corpus) (trace : List TraceEntry) (gapsFilled : List String)
    {ctx : String} {inp : List (String × String)} {solution : String}
    (hload : load_corpus_as_context corpus = .ok ctx)
    (htool : env.toolUses = [{ name := "task_complete", input := inp }])
    (hsol : requireToolField "task_complete" inp "solution" = .ok solution)
    (hsum : ∃ smry, requireToolField "task_complete" inp "summary" = .ok smry) :
    attemptStep gapSearch env now attemptNo corpus trace gapsFilled =
      handleOutcome gapSearch now attemptNo corpus trace gapsFilled
        { attempt := attemptNo, toolCall := "task_complete", textOutput := env.textOutput,
          analysisOutput := (parse_analysis_output env.analysisText solution).analysisRaw }
        (parse_analysis_output env.analysisText solution) := by
  obtain ⟨smry, hsum⟩ := hsum
  have hext : extractToolUse env = .ok ("task_complete", inp) := by
    unfold extractToolUse
    rw [htool]
  simp [attemptStep, hload, hext, hsol, hsum]

theorem handleOutcome_no_gap {gapSearch : String → Except String (List Source)}
    {now : String} {attemptNo : Nat} {corpus : Corpus} {trace : List TraceEntry}
    {gapsFilled : List String} {entry : TraceEntry} {outcome : AttemptOutcome}
    (hsucc : outcome.success = false) (hgap : outcome.gapQuery = none) :
    handleOutcome gapSearch now attemptNo corpus trace gapsFilled entry outcome =
      (.fail (.analysis
        ("Task failed on attempt " ++ toString attemptNo ++
          " without identifiable knowledge gap. Analyzer output: " ++
          (match outcome.analysisRaw with
            | some raw => if raw = "" then outcome.errorMessage.getD "None" else raw
            | none => outcome.errorMessage.getD "None"))), []) := by
  simp [handleOutcome, hsucc, hgap]

theorem handleOutcome_gap_ok {gapSearch : String → Except String (List Source)}
    {now : String} {attemptNo : Nat} {corpus : Corpus} {trace : List TraceEntry}
    {gapsFilled : List String} {entry : TraceEntry} {outcome : AttemptOutcome}
    {q : String} {srcs : List Source} {r : Nat × Corpus}
    (hsucc : outcome.success = false) (hgap : outcome.gapQuery = some q)
    (hgs : gapSearch q = .ok srcs) (hempty : srcs.isEmpty = false)
    (hr : add_pages_to_corpus corpus srcs now = .ok r) :
    handleOutcome gapSearch now attemptNo corpus trace gapsFilled entry outcome =
      (.next r.2
        (trace ++ [{ entry with gapQuery := some q, gapSourcesAdded := some r.1 }])
        (gapsFilled ++ [q]), [q]) := by
  simp [handleOutcome, hsucc, hgap, hgs, hempty, hr]

theorem handleOutcome_gap_err {gapSearch : String → Except String (List Source)}
    {now : String} {attemptNo : Nat} {corpus : Corpus} {trace : List TraceEntry}
    {gapsFilled : List String} {entry : TraceEntry} {outcome : AttemptOutcome}
    {q : String} {e : String}
    (hsucc : outcome.success = false) (hgap : outcome.gapQuery = some q)
    (hgs : gapSearch q = .error e) :
    handleOutcome gapSearch now attemptNo corpus trace gapsFilled entry outcome =
      (.next corpus
        (trace ++ [{ entry with gapQuery := some q, gapSearchFailed := true }])
        gapsFilled, [q]) := by
  simp [handleOutcome, hsucc, hgap, hgs]

/-- Claim C1: an attempt whose second-pass analysis output starts with
`INCOMPLETE:` followed by a non-empty query invokes gap search with
exactly that query; if the search returns at least one source the
query is appended to `gaps_filled` (one element longer) and the
session proceeds to the next attempt; a gap-search failure leaves the
corpus and `gaps_filled` unchanged and the session still proceeds to
the next attempt. -/
theorem C1_incomplete_gap_search :
    ∀ (gapSearch : String → Except String (List Source)) (envs : Nat → AttemptEnv)
      (now : String) (maxAttempts attemptNo : Nat) (mC : Manifest) (corpus : Corpus)
      (trace : List TraceEntry) (gapsFilled : List String)
      (inp : List (String × String)) (solution ctx q : String),
      corpus.manifest = some mC →
      load_corpus_as_context corpus = .ok ctx →
      (envs attemptNo).toolUses = [{ name := "task_complete", input := inp }] →
      requireToolField "task_complete" inp "solution" = .ok solution →
      (∃ smry, requireToolField "task_complete" inp "summary" = .ok smry) →
      strStartsWith (pyStrip (envs attemptNo).analysisText) "INCOMPLETE:" = true →
      pyStrip (strDrop (pyStrip (envs attemptNo).analysisText) 11) = q →
      q ≠ "" →
      ((attemptStep gapSearch (envs attemptNo) now attemptNo corpus trace gapsFilled).2 =
          [q] ∧
        (∀ srcs, gapSearch q = .ok srcs → srcs ≠ [] →
          ∃ corpus₁ trace₁,
            attemptStep gapSearch (envs attemptNo) now attemptNo corpus trace gapsFilled =
              (.next corpus₁ trace₁ (gapsFilled ++ [q]), [q]) ∧
            ∀ n, runAttempts gapSearch envs now maxAttempts (n + 1) attemptNo corpus trace
                gapsFilled =
              runAttempts gapSearch envs now maxAttempts n (attemptNo + 1) corpus₁ trace₁
                (gapsFilled ++ [q])) ∧
        (∀ e, gapSearch q = .error e →
          ∃ trace₁,
            attemptStep gapSearch (envs attemptNo) now attemptNo corpus trace gapsFilled =
              (.next corpus trace₁ gapsFilled, [q]) ∧
            ∀ n, runAttempts gapSearch envs now maxAttempts (n + 1) attemptNo corpus trace
                gapsFilled =
              runAttempts gapSearch envs now maxAttempts n (attemptNo + 1) corpus trace₁
                gapsFilled)) := by
  intro gapSearch envs now maxAttempts attemptNo mC corpus trace gapsFilled inp solution
    ctx q hm hload htool hsol hsum hstart hq hqne
  have hparse := parse_incomplete solution hstart (hq ▸ hqne)
  rw [hq] at hparse
  have hstep := attemptStep_task_complete gapSearch (envs attemptNo) now attemptNo corpus
    trace gapsFilled hload htool hsol hsum
  rw [hparse] at hstep
  refine ⟨?_, ?_, ?_⟩
  · rw [hstep]
    cases hgs : gapSearch q with
    | ok srcs =>
      cases hempty : srcs.isEmpty with
      | true => simp [handleOutcome, hgs, hempty]
      | false =>
        obtain ⟨r, hr⟩ := add_pages_ok hm srcs now
        simp [handleOutcome, hgs, hempty, hr]
    | error e => simp [handleOutcome, hgs]
  · intro srcs hgs hne
    have hempty : srcs.isEmpty = false := by
      cases srcs with
      | nil => exact absurd rfl hne
      | cons a l => rfl
    obtain ⟨r, hr⟩ := add_pages_ok hm srcs now
    have hfull := hstep.trans (handleOutcome_gap_ok rfl rfl hgs hempty hr)
    refine ⟨r.2, _, hfull, ?_⟩
    intro n
    conv_lhs => rw [runAttempts]
    rw [hfull]
  · intro e hgs
    have hfull := hstep.trans (handleOutcome_gap_err rfl rfl hgs)
    refine ⟨_, hfull, ?_⟩
    intro n
    conv_lhs => rw [runAttempts]
    rw [hfull]

/-- Claim C2: an attempt whose second-pass analysis yields an
AMBIGUOUS verdict, or output that matches none of the recognized
markers, terminates the session immediately with an analysis error;
exhausting the attempt budget raises the distinct teacher-session
error. -/
theorem C2_terminal_failures :
    (∀ (gapSearch : String → Except String (List Source)) (envs : Nat → AttemptEnv)
      (now : String) (maxAttempts attemptNo : Nat) (corpus : Corpus)
      (trace : List TraceEntry) (gapsFilled : List String)
      (inp : List (String × String)) (solution ctx : String),
      load_corpus_as_context corpus = .ok ctx →
      (envs attemptNo).toolUses = [{ name := "task_complete", input := inp }] →
      requireToolField "task_complete" inp "solution" = .ok solution →
      (∃ smry, requireToolField "task_complete" inp "summary" = .ok smry) →
      strStartsWith (pyStrip (envs attemptNo).analysisText) "AMBIGUOUS:" = true →
      ∃ msg,
        attemptStep gapSearch (envs attemptNo) now attemptNo corpus trace gapsFilled =
          (.fail (.analysis msg), []) ∧
        ∀ n, runAttempts gapSearch envs now maxAttempts (n + 1) attemptNo corpus trace
            gapsFilled = .error (.analysis msg)) ∧
    (∀ (gapSearch : String → Except String (List Source)) (envs : Nat → AttemptEnv)
      (now : String) (maxAttempts attemptNo : Nat) (corpus : Corpus)
      (trace : List TraceEntry) (gapsFilled : List String)
      (inp : List (String × String)) (solution ctx : String),
      load_corpus_as_context corpus = .ok ctx →
      (envs attemptNo).toolUses = [{ name := "task_complete", input := inp }] →
      requireToolField "task_complete" inp "solution" = .ok solution →
      (∃ smry, requireToolField "task_complete" inp "summary" = .ok smry) →
      strStartsWith (pyStrip (envs attemptNo).analysisText) "COMPLETE:" = false →
      strStartsWith (pyStrip (envs attemptNo).analysisText) "INCOMPLETE:" = false →
      strStartsWith (pyStrip (envs attemptNo).analysisText) "AMBIGUOUS:" = false →
      ∃ msg,
        attemptStep gapSearch (envs attemptNo) now attemptNo corpus trace gapsFilled =
          (.fail (.analysis msg), []) ∧
        ∀ n, runAttempts gapSearch envs now maxAttempts (n + 1) attemptNo corpus trace
            gapsFilled = .error (.analysis msg)) ∧
    (∀ (gapSearch : String → Except String (List Source)) (envs : Nat → AttemptEnv)
      (now : String) (maxAttempts attemptNo : Nat) (corpus : Corpus)
      (trace : List TraceEntry) (gapsFilled : List String),
      runAttempts gapSearch envs now maxAttempts 0 attemptNo corpus trace gapsFilled =
        .error (.teacherSession
          ("Max attempts (" ++ toString maxAttempts ++ ") reached without success"))) ∧
    (∀ m₁ m₂ : String, SessionError.teacherSession m₁ ≠ SessionError.analysis m₂) := by
  refine ⟨?_, ?_, ?_, ?_⟩
  · intro gapSearch envs now maxAttempts attemptNo corpus trace gapsFilled inp solution
      ctx hload htool hsol hsum hstart
    have hparse := parse_ambiguous solution hstart
    have hstep := attemptStep_task_complete gapSearch (envs attemptNo) now attemptNo corpus
      trace gapsFilled hload htool hsol hsum
    rw [hparse] at hstep
    rw [handleOutcome_no_gap rfl rfl] at hstep
    refine ⟨_, hstep, ?_⟩
    intro n
    conv_lhs => rw [runAttempts]
    rw [hstep]
  · intro gapSearch envs now maxAttempts attemptNo corpus trace gapsFilled inp solution
      ctx hload htool hsol hsum hC hI hA
    have hparse := parse_unrecognized solution hC hI hA
    have hstep := attemptStep_task_complete gapSearch (envs attemptNo) now attemptNo corpus
      trace gapsFilled hload htool hsol hsum
    rw [hparse] at hstep
    rw [handleOutcome_no_gap rfl rfl] at hstep
    refine ⟨_, hstep, ?_⟩
    intro n
    conv_lhs => rw [runAttempts]
    rw [hstep]
  · intro gapSearch envs now maxAttempts attemptNo corpus trace gapsFilled
    rfl
  · intro m₁ m₂ h
    cases h

/-! ## Teacher session witness fixtures -/

/-- A concrete valid tool input for `task_complete`. -/
def inpA : List (String × String) := [("solution", "print(1)"), ("summary", "did it")]

/-- A model response claiming completion whose analyzer verdict is
`INCOMPLETE:` with a query. -/
def envInc : AttemptEnv where
  toolUses := [{ name := "task_complete", input := inpA }]
  textOutput := ""
  analysisText := "INCOMPLETE: stripe api webhooks"

/-- A model response claiming completion whose analyzer verdict is
`AMBIGUOUS:`. -/
def envAmb : AttemptEnv where
  toolUses := [{ name := "task_complete", input := inpA }]
  textOutput := ""
  analysisText := "AMBIGUOUS: unclear"

/-- A model response claiming completion whose analyzer output matches
no recognized marker. -/
def envBad : AttemptEnv where
  toolUses := [{ name := "task_complete", input := inpA }]
  textOutput := ""
  analysisText := "I think it works"

/-- A gap-search oracle that always finds one content-bearing source. -/
def gapSearchOk : String → Except String (List Source) := fun _ => .ok [gapSrc]

/-- Witness for C1 at concrete inputs: the gap search is invoked with
exactly the stripped query and the step continues with it appended to
the filled gaps. -/
theorem C1_incomplete_gap_search_witness :
    (attemptStep gapSearchOk envInc "now" 1 corpusA [] []).2 = ["stripe api webhooks"] ∧
    ∃ corpus₁ trace₁,
      attemptStep gapSearchOk envInc "now" 1 corpusA [] [] =
        (.next corpus₁ trace₁ ([] ++ ["stripe api webhooks"]), ["stripe api webhooks"]) := by
  have h := C1_incomplete_gap_search gapSearchOk (fun _ => envInc) "now" 5 1 manifestA
    corpusA [] [] inpA "print(1)" "=== SOURCE: https://x ===\n\nhello"
    "stripe api webhooks" rfl rfl rfl rfl ⟨"did it", rfl⟩ (by decide)
    (by decide) (by decide)
  obtain ⟨h₁, h₂, _⟩ := h
  obtain ⟨corpus₁, trace₁, hstep, _⟩ := h₂ [gapSrc] rfl (by decide)
  exact ⟨h₁, corpus₁, trace₁, hstep⟩

/-- Witness for C2 at concrete inputs: an AMBIGUOUS verdict fails the
session with an analysis error, an unrecognized verdict does too, and
running out of attempts raises the teacher-session error. -/
theorem C2_terminal_failures_witness :
    (∃ msg, attemptStep gapSearchOk envAmb "now" 1 corpusA [] [] =
        (.fail (.analysis msg), []) ∧
      ∀ n, runAttempts gapSearchOk (fun _ => envAmb) "now" 5 (n + 1) 1 corpusA [] [] =
        .error (.analysis msg)) ∧
    (∃ msg, attemptStep gapSearchOk envBad "now" 1 corpusA [] [] =
        (.fail (.analysis msg), [])) ∧
    runAttempts gapSearchOk (fun _ => envAmb) "now" 5 0 1 corpusA [] [] =
      .error (.teacherSession "Max attempts (5) reached without success") := by
  refine ⟨?_, ?_, ?_⟩
  · exact C2_terminal_failures.1 gapSearchOk (fun _ => envAmb) "now" 5 1 corpusA [] [] inpA
      "print(1)" "=== SOURCE: https://x ===\n\nhello" rfl rfl rfl
      ⟨"did it", rfl⟩ (by decide)
  · obtain ⟨msg, hstep, _⟩ := C2_terminal_failures.2.1 gapSearchOk (fun _ => envBad) "now" 5 1
      corpusA [] [] inpA "print(1)" "=== SOURCE: https://x ===\n\nhello" rfl rfl
      rfl ⟨"did it", rfl⟩ (by decide) (by decide) (by decide)
    exact ⟨msg, hstep⟩
  · have h := C2_terminal_failures.2.2.1 gapSearchOk (fun _ => envAmb) "now" 5 1 corpusA [] []
    have hs : ("Max attempts (" ++ toString (5 : Nat) ++ ") reached without success") =
        "Max attempts (5) reached without success" := by decide
    rw [hs] at h
    exact h

end SkillForge
